import Mathlib

/-!
Verification of the resume-agent pipeline integrity engine.

Shallow embedding of the pure core of `src/resume_agent_crewai/main.py` and
`src/resume_agent_crewai/tools/pdf_tool.py`.  Python strings are modelled as
`String`/`List Char`, Python floats as exact rationals, Python byte strings
as `List Nat` (one `Nat` per byte), files as explicit parameters, and the
`json` standard library as an executable JSON value type with a parser.
-/

namespace ResumeAgent

/-! ## Character classes and basic text helpers -/

/-- The characters matched by the `[ \t]` class in `_normalize_text`
(main.py lines 48-52 and pdf_tool.py lines 13-16). -/
def isSpTab (c : Char) : Bool := c = ' ' || c = '\t'

/-- ASCII whitespace as stripped by Python `str.strip()` with no arguments:
space, tab, newline, carriage return, vertical tab, form feed. -/
def isPyWs (c : Char) : Bool :=
  c = ' ' || c = '\t' || c = '\n' || c = '\r' || c = '\x0b' || c = '\x0c'

/-- Structural worker for `collapseSpaces`; the fuel starts at the list
length, which the recursion never exhausts. -/
def collapseSpacesAux : Nat → List Char → List Char
  | _, [] => []
  | 0, l => l
  | fuel + 1, c :: cs =>
    if isSpTab c then ' ' :: collapseSpacesAux fuel (cs.dropWhile isSpTab)
    else c :: collapseSpacesAux fuel cs

/-- `re.sub(r"[ \t]+", " ", text)`: every maximal run of spaces and tabs is
replaced by a single space. -/
def collapseSpaces (l : List Char) : List Char := collapseSpacesAux l.length l

/-- Structural worker for `collapseNewlines`. -/
def collapseNewlinesAux : Nat → List Char → List Char
  | _, [] => []
  | 0, l => l
  | fuel + 1, c :: cs =>
    if c = '\n' then
      (if 2 ≤ (cs.takeWhile (· = '\n')).length then ['\n', '\n']
       else '\n' :: cs.takeWhile (· = '\n')) ++
        collapseNewlinesAux fuel (cs.dropWhile (· = '\n'))
    else c :: collapseNewlinesAux fuel cs

/-- `re.sub(r"\n{3,}", "\n\n", text)`: every maximal run of three or more
newlines is replaced by exactly two newlines; shorter runs are kept. -/
def collapseNewlines (l : List Char) : List Char := collapseNewlinesAux l.length l

theorem collapseSpacesAux_fuel :
    ∀ {f₁ f₂ : Nat} {l : List Char}, l.length ≤ f₁ → l.length ≤ f₂ →
      collapseSpacesAux f₁ l = collapseSpacesAux f₂ l := by
  intro f₁
  induction f₁ with
  | zero =>
    intro f₂ l h1 _
    have : l = [] := List.eq_nil_of_length_eq_zero (Nat.le_zero.mp h1)
    subst this
    cases f₂ <;> rfl
  | succ f ih =>
    intro f₂ l h1 h2
    cases l with
    | nil => cases f₂ <;> rfl
    | cons c cs =>
      cases f₂ with
      | zero => simp at h2
      | succ f' =>
        simp only [collapseSpacesAux]
        by_cases hc : isSpTab c = true
        · rw [if_pos hc, if_pos hc]
          have hd := (List.dropWhile_sublist (l := cs) isSpTab).length_le
          simp only [List.length_cons] at h1 h2
          exact congrArg (fun t => ' ' :: t)
            (ih (Nat.le_trans hd (by omega)) (Nat.le_trans hd (by omega)))
        · rw [if_neg hc, if_neg hc]
          simp only [List.length_cons] at h1 h2
          exact congrArg (fun t => c :: t) (ih (by omega) (by omega))

theorem collapseSpaces_nil : collapseSpaces [] = [] := rfl

theorem collapseSpaces_cons (c : Char) (cs : List Char) :
    collapseSpaces (c :: cs) =
      if isSpTab c then ' ' :: collapseSpaces (cs.dropWhile isSpTab)
      else c :: collapseSpaces cs := by
  show collapseSpacesAux (cs.length + 1) (c :: cs) = _
  simp only [collapseSpacesAux]
  by_cases hc : isSpTab c = true
  · rw [if_pos hc, if_pos hc, collapseSpacesAux_fuel
      (List.dropWhile_sublist (l := cs) isSpTab).length_le (le_refl _)]
    rfl
  · rw [if_neg hc, if_neg hc]
    rfl

theorem collapseNewlinesAux_fuel :
    ∀ {f₁ f₂ : Nat} {l : List Char}, l.length ≤ f₁ → l.length ≤ f₂ →
      collapseNewlinesAux f₁ l = collapseNewlinesAux f₂ l := by
  intro f₁
  induction f₁ with
  | zero =>
    intro f₂ l h1 _
    have : l = [] := List.eq_nil_of_length_eq_zero (Nat.le_zero.mp h1)
    subst this
    cases f₂ <;> rfl
  | succ f ih =>
    intro f₂ l h1 h2
    cases l with
    | nil => cases f₂ <;> rfl
    | cons c cs =>
      cases f₂ with
      | zero => simp at h2
      | succ f' =>
        simp only [collapseNewlinesAux]
        by_cases hc : c = '\n'
        · rw [if_pos hc, if_pos hc]
          have hd := (List.dropWhile_sublist (l := cs) (· = '\n')).length_le
          simp only [List.length_cons] at h1 h2
          exact congrArg (fun t => _ ++ t)
            (ih (Nat.le_trans hd (by omega)) (Nat.le_trans hd (by omega)))
        · rw [if_neg hc, if_neg hc]
          simp only [List.length_cons] at h1 h2
          exact congrArg (fun t => c :: t) (ih (by omega) (by omega))

theorem collapseNewlines_nil : collapseNewlines [] = [] := rfl

theorem collapseNewlines_cons (c : Char) (cs : List Char) :
    collapseNewlines (c :: cs) =
      if c = '\n' then
        (if 2 ≤ (cs.takeWhile (· = '\n')).length then ['\n', '\n']
         else '\n' :: cs.takeWhile (· = '\n')) ++
          collapseNewlines (cs.dropWhile (· = '\n'))
      else c :: collapseNewlines cs := by
  show collapseNewlinesAux (cs.length + 1) (c :: cs) = _
  simp only [collapseNewlinesAux]
  by_cases hc : c = '\n'
  · rw [if_pos hc, if_pos hc, collapseNewlinesAux_fuel
      (List.dropWhile_sublist (l := cs) (· = '\n')).length_le (le_refl _)]
    rfl
  · rw [if_neg hc, if_neg hc]
    rfl

/-- Induction following the recursion structure of `collapseSpaces`. -/
theorem collapseSpaces_induct (motive : List Char → Prop)
    (case1 : motive [])
    (case2 : ∀ c cs, isSpTab c = true →
      motive (cs.dropWhile isSpTab) → motive (c :: cs))
    (case3 : ∀ c cs, ¬ isSpTab c = true → motive cs → motive (c :: cs)) :
    ∀ l, motive l := by
  intro l
  generalize hn : l.length = n
  induction n using Nat.strong_induction_on generalizing l with
  | _ n ih =>
    cases l with
    | nil => exact case1
    | cons c cs =>
      simp only [List.length_cons] at hn
      by_cases hc : isSpTab c = true
      · refine case2 c cs hc (ih (cs.dropWhile isSpTab).length ?_ _ rfl)
        have := (List.dropWhile_sublist (l := cs) isSpTab).length_le
        omega
      · exact case3 c cs hc (ih cs.length (by omega) _ rfl)

/-- Induction following the recursion structure of `collapseNewlines`. -/
theorem collapseNewlines_induct (motive : List Char → Prop)
    (case1 : motive [])
    (case2 : ∀ cs, motive (cs.dropWhile (· = '\n')) → motive ('\n' :: cs))
    (case3 : ∀ c cs, ¬ c = '\n' → motive cs → motive (c :: cs)) :
    ∀ l, motive l := by
  intro l
  generalize hn : l.length = n
  induction n using Nat.strong_induction_on generalizing l with
  | _ n ih =>
    cases l with
    | nil => exact case1
    | cons c cs =>
      simp only [List.length_cons] at hn
      by_cases hc : c = '\n'
      · subst hc
        refine case2 cs (ih (cs.dropWhile (· = '\n')).length ?_ _ rfl)
        have := (List.dropWhile_sublist (l := cs) (· = '\n')).length_le
        omega
      · exact case3 c cs hc (ih cs.length (by omega) _ rfl)

/-- Python `str.strip()` on a character list: drop leading and trailing
whitespace. -/
def pyStripList (l : List Char) : List Char :=
  ((l.dropWhile isPyWs).reverse.dropWhile isPyWs).reverse

/-- Python `str.strip()`. -/
def pyStrip (s : String) : String := ⟨pyStripList s.data⟩

/-- `_normalize_text` (main.py lines 48-52, identical copy at pdf_tool.py
lines 13-16): collapse horizontal whitespace runs, collapse 3+ newlines to 2,
strip. -/
def normalizeChars (l : List Char) : List Char :=
  pyStripList (collapseNewlines (collapseSpaces l))

/-- `_normalize_text` on `String`. -/
def normalizeText (s : String) : String := ⟨normalizeChars s.data⟩

/-! ## Content overlap (`_content_overlap_ratio`, main.py lines 63-73) -/

/-- The character class `[a-z0-9]` used by `_tokens`. -/
def isTokenChar (c : Char) : Bool :=
  ('a' ≤ c && c ≤ 'z') || ('0' ≤ c && c ≤ '9')

/-- Structural worker for `alnumRuns`. -/
def alnumRunsAux : Nat → List Char → List String
  | _, [] => []
  | 0, _ => []
  | fuel + 1, c :: cs =>
    if isTokenChar c then
      String.mk (c :: cs.takeWhile isTokenChar) ::
        alnumRunsAux fuel (cs.dropWhile isTokenChar)
    else alnumRunsAux fuel cs

/-- `re.findall(r"[a-z0-9]+", s)`: the maximal runs of token characters. -/
def alnumRuns (l : List Char) : List String := alnumRunsAux l.length l

/-- `_tokens` (main.py lines 65-66): lower-case, then extract maximal
alphanumeric runs. -/
def tokensOf (s : String) : List String :=
  alnumRuns (s.data.map Char.toLower)

/-- `_content_overlap_ratio` (main.py lines 63-73).  Python float division is
modelled as exact rational division. -/
def contentOverlapFrac (sourceText generatedText : String) : ℚ :=
  let src := tokensOf sourceText
  let gen := tokensOf generatedText
  if gen.isEmpty then 0
  else ((gen.filter (fun t => decide (t ∈ src))).length : ℚ) /
    ((max gen.length 1 : Nat) : ℚ)

/-! ## Reasonableness gate (`_is_reasonable_resume_text`, main.py 138-145) -/

/-- `_is_reasonable_resume_text`: length at least 200, at least one letter,
letter fraction strictly above 0.4 (the float literal `0.4` is modelled as
the exact rational `2/5`, and the float division `letters / max(len, 1)` as
the exact rational quotient, written with `Rat.divInt`). -/
def isReasonableResumeText (text : String) : Bool :=
  if text.length < 200 then false
  else
    let letters := (text.data.filter Char.isAlpha).length
    if letters = 0 then false
    else decide (Rat.divInt 2 5 <
      Rat.divInt (letters : Int) ((max text.length 1 : Nat) : Int))

/-! ## JSON values and a model of `json.loads`

The Python `json` standard library is external to the repository; it is
modelled here by an executable value type and a recursive-descent parser for
the JSON fragment the codebase exchanges (objects, arrays, strings with the
common escapes, integer numbers, booleans, null).  `jsonParse` returns `none`
exactly where `json.loads` raises `json.JSONDecodeError` on this fragment. -/

/-- JSON values.  Objects keep their key/value pairs as a list in source
order (lookup takes the first match; the repository never produces duplicate
keys).  Numbers are modelled by the integer fragment the codebase uses. -/
inductive Json where
  | null : Json
  | bool : Bool → Json
  | num : Int → Json
  | str : String → Json
  | arr : List Json → Json
  | obj : List (String × Json) → Json

/-- JSON inter-token whitespace. -/
def isJsonWs (c : Char) : Bool := c = ' ' || c = '\t' || c = '\n' || c = '\r'

/-- Skip JSON whitespace. -/
def skipWs (cs : List Char) : List Char := cs.dropWhile isJsonWs

/-- Parse a literal token (`null`, `true`, `false`). -/
def parseLit (lit : List Char) (v : Json) (cs : List Char) : Option (Json × List Char) :=
  if lit.isPrefixOf cs then some (v, cs.drop lit.length) else none

/-- Decode a single JSON string escape character. -/
def decodeEscape (e : Char) : Option Char :=
  if e = '"' then some '"'
  else if e = '\\' then some '\\'
  else if e = '/' then some '/'
  else if e = 'n' then some '\n'
  else if e = 't' then some '\t'
  else if e = 'r' then some '\r'
  else if e = 'b' then some '\x08'
  else if e = 'f' then some '\x0c'
  else none

/-- Parse the body of a JSON string after the opening quote; returns the
decoded characters and the remaining input after the closing quote. -/
def parseStringBody : Nat → List Char → Option (List Char × List Char)
  | 0, _ => none
  | _ + 1, [] => none
  | fuel + 1, c :: cs =>
    if c = '"' then some ([], cs)
    else if c = '\\' then
      match cs with
      | [] => none
      | e :: cs' =>
        match decodeEscape e with
        | none => none
        | some d =>
          match parseStringBody fuel cs' with
          | some (body, rest) => some (d :: body, rest)
          | none => none
    else if c.toNat < 0x20 then none
    else
      match parseStringBody fuel cs with
      | some (body, rest) => some (c :: body, rest)
      | none => none

/-- Numeric value of a decimal digit. -/
def digitVal (c : Char) : Nat := c.toNat - '0'.toNat

/-- Parse a nonempty run of decimal digits. -/
def parseDigits (cs : List Char) : Option (Nat × List Char) :=
  let ds := cs.takeWhile Char.isDigit
  if ds.isEmpty then none
  else some (ds.foldl (fun n c => n * 10 + digitVal c) 0, cs.drop ds.length)

mutual

/-- Parse one JSON value (after optional leading whitespace). -/
def parseValue : Nat → List Char → Option (Json × List Char)
  | 0, _ => none
  | fuel + 1, cs0 =>
    match skipWs cs0 with
    | [] => none
    | c :: rest =>
      if c = '{' then
        match skipWs rest with
        | '}' :: rest1 => some (Json.obj [], rest1)
        | _ =>
          match parseMembers fuel rest with
          | some (kvs, r) => some (Json.obj kvs, r)
          | none => none
      else if c = '[' then
        match skipWs rest with
        | ']' :: rest1 => some (Json.arr [], rest1)
        | _ =>
          match parseElems fuel rest with
          | some (vs, r) => some (Json.arr vs, r)
          | none => none
      else if c = '"' then
        match parseStringBody fuel rest with
        | some (body, r) => some (Json.str (String.mk body), r)
        | none => none
      else if c = 'n' then parseLit "null".data Json.null (c :: rest)
      else if c = 't' then parseLit "true".data (Json.bool true) (c :: rest)
      else if c = 'f' then parseLit "false".data (Json.bool false) (c :: rest)
      else if c = '-' then
        match parseDigits rest with
        | some (n, r) => some (Json.num (-(n : Int)), r)
        | none => none
      else if c.isDigit then
        match parseDigits (c :: rest) with
        | some (n, r) => some (Json.num (n : Int), r)
        | none => none
      else none

/-- Parse the members of a JSON object after the opening brace (at least
one member), including the closing brace. -/
def parseMembers : Nat → List Char → Option (List (String × Json) × List Char)
  | 0, _ => none
  | fuel + 1, cs =>
    match skipWs cs with
    | '"' :: rest =>
      match parseStringBody fuel rest with
      | some (key, rest1) =>
        match skipWs rest1 with
        | ':' :: rest2 =>
          match parseValue fuel rest2 with
          | some (v, rest3) =>
            match skipWs rest3 with
            | ',' :: rest4 =>
              match parseMembers fuel rest4 with
              | some (kvs, rest5) => some ((String.mk key, v) :: kvs, rest5)
              | none => none
            | '}' :: rest4 => some ([(String.mk key, v)], rest4)
            | _ => none
          | none => none
        | _ => none
      | none => none
    | _ => none

/-- Parse the elements of a JSON array after the opening bracket (at least
one element), including the closing bracket. -/
def parseElems : Nat → List Char → Option (List Json × List Char)
  | 0, _ => none
  | fuel + 1, cs =>
    match parseValue fuel cs with
    | some (v, rest) =>
      match skipWs rest with
      | ',' :: rest1 =>
        match parseElems fuel rest1 with
        | some (vs, r) => some (v :: vs, r)
        | none => none
      | ']' :: rest1 => some ([v], rest1)
      | _ => none
    | none => none

end

/-- Model of `json.loads`: parse one value and require that only whitespace
remains. -/
def jsonParse (s : String) : Option Json :=
  match parseValue (s.length + 1) s.data with
  | some (v, rest) => if (skipWs rest).isEmpty then some v else none
  | none => none

/-! ## Structured output extraction (`_extract_json_object`, main.py 113-136) -/

/-- The `\s` class of Python regular expressions (ASCII range). -/
def isReWs (c : Char) : Bool :=
  c = ' ' || c = '\t' || c = '\n' || c = '\r' || c = '\x0b' || c = '\x0c'

/-- Three backticks, the fence delimiter of the pattern at main.py line 123. -/
def fenceTicks : List Char := "```".data

/-- Lazy scan implementing `(\{.*?\})\s*` followed by the closing fence: given
the characters after the opening brace, find the shortest prefix ending at a
`}` that is followed by optional whitespace and three backticks; returns that
prefix including the `}`. -/
def fenceClose : List Char → Option (List Char)
  | [] => none
  | c :: rest =>
    if c = '}' && fenceTicks.isPrefixOf (rest.dropWhile isReWs) then some [c]
    else
      match fenceClose rest with
      | some body => some (c :: body)
      | none => none

/-- One anchored attempt of the pattern
`` ```(?:json)?\s*(\{.*?\})\s*``` `` (re.DOTALL) at the current position;
returns the captured group.  The optional `json` tag is consumed when present
(when the text after the ticks starts with `json`, the regex alternative that
skips the tag always fails, because `j` is neither whitespace nor `{`). -/
def fenceAt (cs : List Char) : Option (List Char) :=
  if fenceTicks.isPrefixOf cs then
    let afterTicks := cs.drop 3
    let afterTag :=
      if ("json".data).isPrefixOf afterTicks then afterTicks.drop 4 else afterTicks
    match afterTag.dropWhile isReWs with
    | '{' :: body =>
      match fenceClose body with
      | some inner => some ('{' :: inner)
      | none => none
    | _ => none
  else none

/-- `re.search` of the fence pattern: the leftmost position at which the
anchored attempt succeeds wins. -/
def fenceSearch : List Char → Option (List Char)
  | [] => none
  | c :: cs =>
    match fenceAt (c :: cs) with
    | some cap => some cap
    | none => fenceSearch cs

/-- Python `str.find(ch)`: index of the first occurrence. -/
def pyFind (ch : Char) (l : List Char) : Option Nat := l.indexOf? ch

/-- Python `str.rfind(ch)`: index of the last occurrence. -/
def pyRFind (ch : Char) (l : List Char) : Option Nat :=
  match l.reverse.indexOf? ch with
  | some i => some (l.length - 1 - i)
  | none => none

/-- How a call to `_extract_json_object` fails:
`malformedOutput` is the function's own
`Exception(f"{source_name} output was not valid JSON object.")`;
`jsonDecodeError` is an uncaught `json.JSONDecodeError` escaping from the
fenced-block attempt (line 125) or the brace-scan attempt (line 132), where
`json.loads` is called outside any `try` block. -/
inductive ExtractError where
  | malformedOutput : ExtractError
  | jsonDecodeError : ExtractError
deriving DecidableEq

/-- The third recovery attempt of `_extract_json_object` (main.py 129-134):
substring from the first `{` to the last `}` inclusive, parsed; a non-object
parse result falls through to the final `raise`. -/
def extractBraceScan (r : String) : Except ExtractError (List (String × Json)) :=
  match pyFind '{' r.data, pyRFind '}' r.data with
  | some s, some e =>
    if s < e then
      match jsonParse (String.mk ((r.data.drop s).take (e + 1 - s))) with
      | none => Except.error ExtractError.jsonDecodeError
      | some (Json.obj kvs) => Except.ok kvs
      | some _ => Except.error ExtractError.malformedOutput
    else Except.error ExtractError.malformedOutput
  | _, _ => Except.error ExtractError.malformedOutput

/-- `_extract_json_object` (main.py 113-136).  The raw text is stripped; then,
in order: (1) direct parse, accepted only when it yields an object (a parse
error is caught, a non-object falls through); (2) fenced-block parse, whose
parse error is NOT caught and whose non-object result falls through; (3)
brace-scan parse, whose parse error is NOT caught; otherwise the function
raises its "not valid JSON object" exception. -/
def extractJsonObject (raw : String) : Except ExtractError (List (String × Json)) :=
  let r := pyStrip raw
  match jsonParse r with
  | some (Json.obj kvs) => Except.ok kvs
  | _ =>
    match fenceSearch r.data with
    | some cap =>
      match jsonParse (String.mk cap) with
      | none => Except.error ExtractError.jsonDecodeError
      | some (Json.obj kvs) => Except.ok kvs
      | some _ => extractBraceScan r
    | none => extractBraceScan r

/-! ## Python coercions used by the cache loader

`_load_resume_cache` and `_stage_review_update_render_pdf` apply `str(...)`
to JSON values and iterate over them with list comprehensions; these Python
built-ins are modelled below. -/

/-- Python `repr` of a JSON-decoded value (scalars exactly; containers in
Python's bracketed rendering, string quoting without escape refinements — no
claim depends on the rendering of containers). -/
def pyRepr : Json → String
  | Json.null => "None"
  | Json.bool true => "True"
  | Json.bool false => "False"
  | Json.num n => toString n
  | Json.str s => "\x27" ++ s ++ "\x27"
  | Json.arr xs =>
    "[" ++ String.intercalate ", " (xs.attach.map (fun x => pyRepr x.1)) ++ "]"
  | Json.obj kvs =>
    "\x7b" ++
      String.intercalate ", "
        (kvs.attach.map (fun kv =>
          match kv with
          | ⟨(k, v), _⟩ => "\x27" ++ k ++ "\x27: " ++ pyRepr v)) ++ "\x7d"
decreasing_by
  · have := List.sizeOf_lt_of_mem x.2
    simp at *
    omega
  · rename_i hmem
    have := List.sizeOf_lt_of_mem hmem
    simp at *
    omega

/-- Python `str(...)` of a JSON-decoded value. -/
def pyStr : Json → String
  | Json.str s => s
  | j => pyRepr j

/-- Python iteration (`for item in x`) over a JSON-decoded value, as used by
the `[str(item) for item in payload.get(..., [])]` comprehensions:
lists yield their elements, strings their characters, dicts their keys;
scalars raise `TypeError`. -/
def pyIter : Json → Option (List Json)
  | Json.arr xs => some xs
  | Json.str s => some (s.data.map (fun c => Json.str (String.singleton c)))
  | Json.obj kvs => some (kvs.map (fun kv => Json.str kv.1))
  | _ => none

/-- Python `dict[key]` / `dict.get(key)` on a decoded JSON object (keys are
unique after `json.loads`, so first-match lookup is exact). -/
def jsonGet (kvs : List (String × Json)) (k : String) : Option Json :=
  (kvs.find? (fun kv => kv.1 == k)).map (fun kv => kv.2)

/-- Python `dict.get(key, default)`. -/
def jsonGetD (kvs : List (String × Json)) (k : String) (d : Json) : Json :=
  (jsonGet kvs k).getD d

/-! ## Pipeline state and the cache store (main.py 17-35, 186-315) -/

/-- `ResumePackage` (main.py 17-27), with its pydantic defaults.
`feedback_items: list[dict]` is not enforced by the code paths modelled here,
so the field holds arbitrary JSON values. -/
structure ResumePackage where
  sourcePdfPath : String := "src/resume_agent_crewai/Resume.pdf"
  sourcePdfHash : String := ""
  flowVersion : String := ""
  cacheKey : String := ""
  cacheHit : Bool := false
  finalResumeText : String := ""
  updatedPdfPath : String := ""
  feedbackItems : List Json := []
  appliedUserUpdates : List String := []
  skippedUserUpdates : List String := []

/-- The package in its default state. -/
def initialPackage : ResumePackage := {}

/-- The exceptions the modelled pipeline stages can raise. -/
inductive PipelineError where
  | lowQualityOutput : PipelineError
  | updatedPdfNotFound : PipelineError
  | feedbackItemsInvalid : PipelineError
  | schemaViolation : List String → PipelineError
  | attributeError : PipelineError
  | typeError : PipelineError
  | extractFailed : ExtractError → PipelineError
deriving DecidableEq

/-- Side effects performed by the pipeline stages, in order. -/
inductive PipelineEffect where
  | runResumeCrew : PipelineEffect
  | writeArtifacts : PipelineEffect
  | saveCache : PipelineEffect
deriving DecidableEq

/-- `_set_resume_outputs` (main.py 186-215): normalize the final text, gate it,
require the updated PDF to exist, require `feedback_items` to be a non-empty
list, then commit all fields to the package.  `Path(...).expanduser().resolve()`
is modelled as the identity on path strings and filesystem existence by the
predicate `pdfExists`. -/
def setResumeOutputs (pdfExists : String → Bool) (pkg : ResumePackage)
    (finalResumeText updatedPdfPath : String) (feedbackItems : Json)
    (applied skipped : List String) (cacheHit : Bool) :
    Except PipelineError ResumePackage :=
  let normalized := normalizeText finalResumeText
  if isReasonableResumeText normalized = false then
    Except.error PipelineError.lowQualityOutput
  else if pdfExists updatedPdfPath = false then
    Except.error PipelineError.updatedPdfNotFound
  else
    match feedbackItems with
    | Json.arr (x :: xs) =>
      Except.ok { pkg with
        finalResumeText := normalized
        updatedPdfPath := updatedPdfPath
        feedbackItems := x :: xs
        appliedUserUpdates := applied
        skippedUserUpdates := skipped
        cacheHit := cacheHit }
    | _ => Except.error PipelineError.feedbackItemsInvalid

/-- The required keys of a cache record and of the crew payload
(main.py lines 247 and 296). -/
def requiredKeys : List String :=
  ["final_resume_text", "updated_pdf_path", "feedback_items"]

/-- The `review.json` payload written by `_write_resume_artifacts`
(main.py 217-235); `now` is `datetime.now(timezone.utc).isoformat()`. -/
def reviewPayload (now : String) (pkg : ResumePackage) : Json :=
  Json.obj [
    ("generated_at_utc", Json.str now),
    ("flow_version", Json.str pkg.flowVersion),
    ("cache_key", Json.str pkg.cacheKey),
    ("feedback_items", Json.arr pkg.feedbackItems),
    ("applied_user_updates", Json.arr (pkg.appliedUserUpdates.map Json.str)),
    ("skipped_user_updates", Json.arr (pkg.skippedUserUpdates.map Json.str))]

/-- The key/value pairs of the cache record written by `_save_resume_cache`
(main.py 267-283). -/
def cacheRecordFields (now : String) (pkg : ResumePackage) :
    List (String × Json) := [
    ("generated_at_utc", Json.str now),
    ("flow_version", Json.str pkg.flowVersion),
    ("cache_key", Json.str pkg.cacheKey),
    ("source_pdf_path", Json.str pkg.sourcePdfPath),
    ("source_pdf_hash", Json.str pkg.sourcePdfHash),
    ("final_resume_text", Json.str pkg.finalResumeText),
    ("updated_pdf_path", Json.str pkg.updatedPdfPath),
    ("feedback_items", Json.arr pkg.feedbackItems),
    ("applied_user_updates", Json.arr (pkg.appliedUserUpdates.map Json.str)),
    ("skipped_user_updates", Json.arr (pkg.skippedUserUpdates.map Json.str))]

/-- The cache record written by `_save_resume_cache` (main.py 267-283), at the
JSON level. -/
def saveResumeCachePayload (now : String) (pkg : ResumePackage) : Json :=
  Json.obj (cacheRecordFields now pkg)

/-- The state of the cache file for one key: `none` = file missing,
`some none` = file present but `json.loads` raises `JSONDecodeError`,
`some (some v)` = file parses to the JSON value `v`. -/
abbrev CacheFile := Option (Option Json)

/-- Shared tail of the loader and of the fresh stage: evaluate the
`str(...)`/comprehension coercions of the payload fields in Python's
argument-evaluation order, then call `_set_resume_outputs`. -/
def applyPayload (pdfExists : String → Bool) (pkg : ResumePackage)
    (kvs : List (String × Json)) (cacheHit : Bool) :
    Except PipelineError ResumePackage :=
  let ft := jsonGetD kvs "final_resume_text" Json.null
  let up := jsonGetD kvs "updated_pdf_path" Json.null
  let fi := jsonGetD kvs "feedback_items" Json.null
  match pyIter (jsonGetD kvs "applied_user_updates" (Json.arr [])) with
  | none => Except.error PipelineError.typeError
  | some appliedItems =>
    match pyIter (jsonGetD kvs "skipped_user_updates" (Json.arr [])) with
    | none => Except.error PipelineError.typeError
    | some skippedItems =>
      setResumeOutputs pdfExists pkg (pyStr ft) (pyStr up) fi
        (appliedItems.map pyStr) (skippedItems.map pyStr) cacheHit

/-- `_load_resume_cache` (main.py 237-265).  Returns `Except.ok none` for a
cache miss (the Python `return False` paths: file missing, `JSONDecodeError`,
required key absent), `Except.ok (some (pkg, effects))` for a hit, and
`Except.error e` when an exception escapes: `attributeError` when the parsed
JSON is not an object (`payload.keys()` on a non-dict), or any exception
raised by `_set_resume_outputs` / the list coercions. -/
def loadResumeCache (pdfExists : String → Bool) (pkg : ResumePackage)
    (cacheFile : CacheFile) :
    Except PipelineError (Option (ResumePackage × List PipelineEffect)) :=
  match cacheFile with
  | none => Except.ok none
  | some none => Except.ok none
  | some (some payload) =>
    match payload with
    | Json.obj kvs =>
      if requiredKeys.all (fun k => (jsonGet kvs k).isSome) then
        match applyPayload pdfExists pkg kvs true with
        | Except.error e => Except.error e
        | Except.ok pkg1 => Except.ok (some (pkg1, [PipelineEffect.writeArtifacts]))
      else Except.ok none
    | _ => Except.error PipelineError.attributeError

/-- `_stage_review_update_render_pdf` (main.py 285-315): run the resume crew,
extract its JSON object, check the required keys (raising with the sorted
missing keys), commit the outputs, write the artifacts, save the cache.
`crewRaw` is the raw text the crew returned. -/
def stageReviewUpdateRenderPdf (pdfExists : String → Bool) (pkg : ResumePackage)
    (crewRaw : String) : Except PipelineError (ResumePackage × List PipelineEffect) :=
  match extractJsonObject crewRaw with
  | Except.error e => Except.error (PipelineError.extractFailed e)
  | Except.ok kvs =>
    let missing := requiredKeys.filter (fun k => (jsonGet kvs k).isNone)
    if missing.isEmpty then
      match applyPayload pdfExists pkg kvs false with
      | Except.error e => Except.error e
      | Except.ok pkg1 =>
        Except.ok (pkg1,
          [PipelineEffect.runResumeCrew, PipelineEffect.writeArtifacts,
           PipelineEffect.saveCache])
    else
      Except.error (PipelineError.schemaViolation
        (missing.mergeSort (fun a b => decide (a ≤ b))))

/-- `run_resume_pipeline` (main.py 396-400), after the fingerprint stage:
`if not self._load_resume_cache(): self._stage_review_update_render_pdf()`. -/
def runResumePipeline (pdfExists : String → Bool) (pkg : ResumePackage)
    (cacheFile : CacheFile) (crewRaw : String) :
    Except PipelineError (ResumePackage × List PipelineEffect) :=
  match loadResumeCache pdfExists pkg cacheFile with
  | Except.error e => Except.error e
  | Except.ok (some res) => Except.ok res
  | Except.ok none => stageReviewUpdateRenderPdf pdfExists pkg crewRaw

/-! ## Fingerprint (`_stage_extract_resume_fingerprint`, main.py 166-179) -/

/-- `ResumeFlow.FLOW_VERSION` (main.py 42). -/
def FLOW_VERSION : String := "resume-flow-v2"

/-- The string hashed into the cache key (main.py 172-173):
`"|".join((FLOW_VERSION, source_hash, normalized_request))`. -/
def fingerprintSignature (version sourceHash request : String) : String :=
  version ++ "|" ++ sourceHash ++ "|" ++ normalizeText request

/-- The cache-key computation of `_stage_extract_resume_fingerprint`
(main.py 166-179).  `hashlib.sha256` is external; it is passed in as the
digest parameters `shaBytes` (for the source file bytes) and `shaStr` (for
the UTF-8 encoded signature). -/
def computeFingerprint (shaBytes : List Nat → String) (shaStr : String → String)
    (version : String) (sourceBytes : List Nat) (request : String) : String :=
  shaStr (fingerprintSignature version (shaBytes sourceBytes) request)

/-- Concrete stand-in digest (string input) used to state closed facts about
`computeFingerprint`; every fact proved with it holds for an arbitrary digest
function. -/
def modelDigestString (s : String) : String :=
  toString (s.data.foldl (fun a c => a * 131 + c.toNat) 7)

/-- Concrete stand-in digest (byte input). -/
def modelDigestBytes (l : List Nat) : String :=
  toString (l.foldl (fun a b => a * 131 + b) 7)

/-- A 210-character plain text, long and alphabetic enough to pass the
reasonableness gate; used in concrete witnesses. -/
def exampleText : String := String.mk (List.replicate 210 'a')

/-- The package produced by a fresh `_set_resume_outputs` commit of
`exampleText`. -/
def examplePackage : ResumePackage :=
  { initialPackage with
    finalResumeText := exampleText
    updatedPdfPath := "p.pdf"
    feedbackItems := [Json.str "ok"]
    cacheHit := false }

/-- A well-formed concrete cache record (all required keys present, values
passing output validation). -/
def exampleCacheRecord : Json := Json.obj [
  ("final_resume_text", Json.str exampleText),
  ("updated_pdf_path", Json.str "p.pdf"),
  ("feedback_items", Json.arr [Json.str "ok"])]

/-! ## Binary document encoder (`_build_simple_text_pdf`, pdf_tool.py 48-131)

The byte stream is modelled as `List Nat` (one entry per byte); Python's
`str.encode("utf-8")` is the UTF-8 encoding `utf8Bytes`. -/

/-- UTF-8 encoding of a single character. -/
def charUtf8 (c : Char) : List Nat :=
  let n := c.toNat
  if n < 0x80 then [n]
  else if n < 0x800 then
    [0xC0 ||| (n >>> 6), 0x80 ||| (n &&& 0x3F)]
  else if n < 0x10000 then
    [0xE0 ||| (n >>> 12), 0x80 ||| ((n >>> 6) &&& 0x3F), 0x80 ||| (n &&& 0x3F)]
  else
    [0xF0 ||| (n >>> 18), 0x80 ||| ((n >>> 12) &&& 0x3F),
     0x80 ||| ((n >>> 6) &&& 0x3F), 0x80 ||| (n &&& 0x3F)]

/-- `s.encode("utf-8")` as a byte list. -/
def utf8Bytes (s : String) : List Nat := s.data.flatMap charUtf8

/-- Page geometry constants (pdf_tool.py 49-54). -/
def pageWidth : Nat := 612
def pageHeight : Nat := 792
def pdfMargin : Nat := 48
def pdfFontSize : Nat := 11
def pdfLineHeight : Nat := 14
def pdfTextTop : Nat := pageHeight - pdfMargin

/-- `lines_per_page = max(1, int((page_height - (2 * margin)) / line_height))`
(pdf_tool.py 55); the float division of exactly representable small integers
truncates to the integer quotient. -/
def linesPerPage : Nat := max 1 ((pageHeight - 2 * pdfMargin) / pdfLineHeight)

/-- Structural worker for `chunksOf`. -/
def chunksOfAux (n : Nat) : Nat → List α → List (List α)
  | _, [] => []
  | 0, l => [l]
  | fuel + 1, x :: xs => (x :: xs).take n :: chunksOfAux n fuel ((x :: xs).drop n)

/-- Split a list into consecutive chunks of size `n` (`lines[i : i + n]` for
`i in range(0, len(lines), n)`); `n` is positive in every use. -/
def chunksOf (n : Nat) (l : List α) : List (List α) := chunksOfAux n l.length l

/-- The page partition (pdf_tool.py 57-59): chunks of `lines_per_page` lines,
or a single empty page when there are no lines (`... or [[]]`). -/
def paginate (lines : List String) : List (List String) :=
  let ps := chunksOf linesPerPage lines
  if ps.isEmpty then [[]] else ps

/-- `_escape_pdf_text` (pdf_tool.py 44-45). -/
def escapePdfText (text : String) : String :=
  ((text.replace "\\" "\\\\").replace "(" "\\(").replace ")" "\\)"

/-- Object 1, the document catalog (pdf_tool.py 64). -/
def catalogBody : List Nat := utf8Bytes "<< /Type /Catalog /Pages 2 0 R >>"

/-- Object 2, the page tree (pdf_tool.py 66-73). -/
def pagesBody (numPages : Nat) : List Nat :=
  utf8Bytes ("<< /Type /Pages /Kids [" ++
    String.intercalate " "
      ((List.range numPages).map (fun idx => toString (4 + idx * 2) ++ " 0 R")) ++
    "] /Count " ++ toString numPages ++ " >>")

/-- Object 3, the shared font resource (pdf_tool.py 75). -/
def fontBody : List Nat :=
  utf8Bytes "<< /Type /Font /Subtype /Type1 /BaseFont /Helvetica >>"

/-- The content-stream operations of one page (pdf_tool.py 81-90). -/
def contentOps (pageLines : List String) : List String :=
  ["BT",
   "/F1 " ++ toString pdfFontSize ++ " Tf",
   toString pdfLineHeight ++ " TL",
   toString pdfMargin ++ " " ++ toString pdfTextTop ++ " Td"]
  ++ pageLines.flatMap (fun line => ["(" ++ escapePdfText line ++ ") Tj", "T*"])
  ++ ["ET"]

/-- The encoded content stream of one page (pdf_tool.py 92). -/
def contentStream (pageLines : List String) : List Nat :=
  utf8Bytes (String.intercalate "\n" (contentOps pageLines))

/-- A content-stream object body (pdf_tool.py 93-97); `/Length` is the byte
length of the stream. -/
def contentBody (pageLines : List String) : List Nat :=
  utf8Bytes ("<< /Length " ++ toString (contentStream pageLines).length ++
    " >>\nstream\n")
  ++ contentStream pageLines
  ++ utf8Bytes "\nendstream"

/-- A page object body (pdf_tool.py 99-102). -/
def pageBody (contentObjNum : Nat) : List Nat :=
  utf8Bytes ("<< /Type /Page /Parent 2 0 R /MediaBox [0 0 " ++
    toString pageWidth ++ " " ++ toString pageHeight ++
    "] /Resources << /Font << /F1 3 0 R >> >> /Contents " ++
    toString contentObjNum ++ " 0 R >>")

/-- The numbered objects in build order (pdf_tool.py 61-105): catalog, page
tree, font, then for each page its page object (number `4 + 2*idx`) and its
content-stream object (number `5 + 2*idx`). -/
def pdfObjects (pages : List (List String)) : List (Nat × List Nat) :=
  [(1, catalogBody), (2, pagesBody pages.length), (3, fontBody)]
  ++ ((List.range pages.length).zip pages).flatMap
      (fun p => [(4 + p.1 * 2, pageBody (5 + p.1 * 2)), (5 + p.1 * 2, contentBody p.2)])

/-- `max_obj_num = 3 + (len(pages) * 2)` (pdf_tool.py 62). -/
def maxObjNum (pages : List (List String)) : Nat := 3 + pages.length * 2

/-- The fixed header `b"%PDF-1.4\n%\xe2\xe3\xcf\xd3\n"` (pdf_tool.py 109). -/
def pdfHeader : List Nat := utf8Bytes "%PDF-1.4\n" ++ [0x25, 0xE2, 0xE3, 0xCF, 0xD3, 0x0A]

/-- The `f"{obj_num} 0 obj"` token. -/
def objToken (k : Nat) : String := toString k ++ " 0 obj"

/-- One serialized object:
`f"{obj_num} 0 obj\n".encode() + obj_body + b"\nendobj\n"` (pdf_tool.py 115). -/
def objBlob (k : Nat) (body : List Nat) : List Nat :=
  utf8Bytes (objToken k ++ "\n") ++ body ++ utf8Bytes "\nendobj\n"

/-- The serialization loop of `_build_simple_text_pdf` (pdf_tool.py 111-118):
accumulate the blobs, record `offsets[obj_num] = cursor`, advance the cursor.
The `offsets` array is modelled as a function (the initial `[0] * (n+1)` is
the constant-zero function). -/
def serializeObjs : List (Nat × List Nat) → List Nat → (Nat → Nat) → Nat →
    List Nat × (Nat → Nat) × Nat
  | [], acc, offs, cursor => (acc, offs, cursor)
  | (k, body) :: rest, acc, offs, cursor =>
    serializeObjs rest (acc ++ objBlob k body) (Function.update offs k cursor)
      (cursor + (objBlob k body).length)

/-- The objects in emission order: `objects.sort(key=lambda item: item[0])`
(pdf_tool.py 107). -/
def pdfSortedObjects (lines : List String) : List (Nat × List Nat) :=
  (pdfObjects (paginate lines)).mergeSort (fun a b => decide (a.1 ≤ b.1))

/-- The result of the serialization loop on the sorted objects, starting from
the header. -/
def pdfSerialized (lines : List String) : List Nat × (Nat → Nat) × Nat :=
  serializeObjs (pdfSortedObjects lines) pdfHeader (fun _ => 0) pdfHeader.length

/-- The serialized objects preceded by the header. -/
def pdfBodyBytes (lines : List String) : List Nat := (pdfSerialized lines).1

/-- The recorded byte offsets (`offsets[obj_num]`). -/
def pdfOffsets (lines : List String) : Nat → Nat := (pdfSerialized lines).2.1

/-- `xref_offset = cursor` after the loop (pdf_tool.py 120). -/
def pdfXrefOffset (lines : List String) : Nat := (pdfSerialized lines).2.2

/-- `pdfMaxObj lines = max_obj_num` for this input. -/
def pdfMaxObj (lines : List String) : Nat := maxObjNum (paginate lines)

/-- `f"{n:010d}"`: decimal, left-padded with zeros to width 10. -/
def pad10 (n : Nat) : String :=
  String.mk (List.replicate (10 - (toString n).length) '0') ++ toString n

/-- The entry lines of the cross-reference table (pdf_tool.py 121-123): the
free entry for object 0, then one line per object number `1 .. max_obj_num`
carrying its recorded offset. -/
def pdfXrefEntries (lines : List String) : List String :=
  "0000000000 65535 f \n" ::
    (List.range (pdfMaxObj lines)).map
      (fun i => pad10 (pdfOffsets lines (i + 1)) ++ " 00000 n \n")

/-- The complete `xref` section (pdf_tool.py 121-123, 128). -/
def pdfXref (lines : List String) : String :=
  "xref\n0 " ++ toString (pdfMaxObj lines + 1) ++ "\n" ++
    String.join (pdfXrefEntries lines)

/-- The `/Size` declared in the trailer (pdf_tool.py 125). -/
def pdfTrailerSize (lines : List String) : Nat := pdfMaxObj lines + 1

/-- The trailer (pdf_tool.py 124-127). -/
def pdfTrailer (lines : List String) : String :=
  "trailer\n<< /Size " ++ toString (pdfTrailerSize lines) ++
    " /Root 1 0 R >>\nstartxref\n" ++ toString (pdfXrefOffset lines) ++ "\n%%EOF\n"

/-- `_build_simple_text_pdf` (pdf_tool.py 48-131): header, objects in
ascending number order, cross-reference table, trailer. -/
def buildSimpleTextPdf (lines : List String) : List Nat :=
  pdfBodyBytes lines ++ utf8Bytes (pdfXref lines) ++ utf8Bytes (pdfTrailer lines)

/-- The object numbers referenced by the trailer (`/Root 1 0 R`), the catalog
(`/Pages 2 0 R`), and the page tree: each `/Kids` entry `4 + 2*idx`, and from
each page object its `/Parent 2 0 R`, `/Font /F1 3 0 R` and
`/Contents (5 + 2*idx) 0 R`. -/
def pdfReferencedObjNums (lines : List String) : List Nat :=
  1 :: 2 :: 3 ::
    (List.range (paginate lines).length).flatMap (fun i => [4 + i * 2, 5 + i * 2])

/-- No tab remains and no two spaces are adjacent. -/
def spacesNormal (l : List Char) : Prop :=
  '\t' ∉ l ∧ List.Chain' (fun a b => ¬(a = ' ' ∧ b = ' ')) l

/-- No three consecutive newlines occur. -/
def noTripleNewline (l : List Char) : Prop :=
  ¬ (['\n', '\n', '\n'] <:+: l)

/-! ## Theorems

### Normalization: shape invariants and idempotence -/

theorem head_dropWhile_not {p : α → Bool} :
    ∀ {l : List α} {c : α} {t : List α}, l.dropWhile p = c :: t → p c = false := by
  intro l
  induction l with
  | nil => intro c t h; simp at h
  | cons a l ih =>
    intro c t h
    rw [List.dropWhile_cons] at h
    split at h
    · exact ih h
    · rename_i hpa
      cases h
      simp only [Bool.not_eq_true] at hpa
      exact hpa

theorem collapseSpaces_head (d : Char) (m : List Char) :
    (collapseSpaces (d :: m)).head? = some (if isSpTab d then ' ' else d) := by
  rw [collapseSpaces_cons]
  split <;> simp

theorem spacesNormal_collapseSpaces (l : List Char) :
    spacesNormal (collapseSpaces l) := by
  induction l using collapseSpaces_induct with
  | case1 => simp [collapseSpaces_nil, spacesNormal]
  | case2 c cs h ih =>
    rw [collapseSpaces_cons, if_pos h]
    obtain ⟨ih1, ih2⟩ := ih
    refine ⟨?_, ?_⟩
    · intro hmem
      rcases List.mem_cons.mp hmem with h1 | h1
      · simp at h1
      · exact ih1 h1
    · rw [List.chain'_cons']
      refine ⟨?_, ih2⟩
      intro y hy
      cases hdrop : cs.dropWhile isSpTab with
      | nil => rw [hdrop] at hy; simp [collapseSpaces_nil] at hy
      | cons d t =>
        rw [hdrop, collapseSpaces_head] at hy
        have hd : isSpTab d = false := head_dropWhile_not hdrop
        rw [hd] at hy
        simp only [Option.mem_def, Option.some.injEq, Bool.false_eq_true,
          if_false] at hy
        subst hy
        intro hcon
        rw [hcon.2] at hd
        simp [isSpTab] at hd
  | case3 c cs h ih =>
    rw [collapseSpaces_cons, if_neg h]
    obtain ⟨ih1, ih2⟩ := ih
    have hc : c ≠ '\t' ∧ c ≠ ' ' := by
      constructor <;> intro hc <;> rw [hc] at h <;> simp [isSpTab] at h
    refine ⟨?_, ?_⟩
    · intro hmem
      rcases List.mem_cons.mp hmem with h1 | h1
      · exact hc.1 h1.symm
      · exact ih1 h1
    · rw [List.chain'_cons']
      exact ⟨fun y _ hcon => hc.2 hcon.1, ih2⟩

theorem collapseSpaces_eq_self {l : List Char} (h : spacesNormal l) :
    collapseSpaces l = l := by
  induction l with
  | nil => simp [collapseSpaces_nil]
  | cons c cs ih =>
    obtain ⟨h1, h2⟩ := h
    have htail : spacesNormal cs :=
      ⟨fun hm => h1 (List.mem_cons_of_mem c hm), (List.chain'_cons'.mp h2).2⟩
    by_cases hc : isSpTab c = true
    · have hcs : c = ' ' := by
        have hc' := hc
        simp only [isSpTab, Bool.or_eq_true, decide_eq_true_eq] at hc'
        rcases hc' with h' | h'
        · exact h'
        · rw [h'] at h1
          exact absurd (List.mem_cons_self _ _) h1
      have hdrop : cs.dropWhile isSpTab = cs := by
        cases cs with
        | nil => simp
        | cons d t =>
          rw [List.dropWhile_cons, if_neg]
          intro hd
          have hd2 : d = ' ' := by
            simp only [isSpTab, Bool.or_eq_true, decide_eq_true_eq] at hd
            rcases hd with h' | h'
            · exact h'
            · rw [h'] at h1
              exact absurd (List.mem_cons_of_mem c (List.mem_cons_self _ _)) h1
          have := (List.chain'_cons'.mp h2).1 d (by simp)
          exact this ⟨hcs, hd2⟩
      rw [collapseSpaces_cons, if_pos hc, hdrop, ih htail, hcs]
    · rw [collapseSpaces_cons, if_neg hc, ih htail]

theorem collapseNewlines_head (d : Char) (m : List Char) :
    (collapseNewlines (d :: m)).head? = some d := by
  rw [collapseNewlines_cons]
  by_cases hd : d = '\n'
  · rw [if_pos hd, hd]
    split <;> simp
  · rw [if_neg hd]
    simp

theorem mem_collapseNewlines {a : Char} :
    ∀ {l : List Char}, a ∈ collapseNewlines l → a ∈ l ∨ a = '\n' := by
  intro l
  induction l using collapseNewlines_induct with
  | case1 => simp [collapseNewlines_nil]
  | case2 cs ih =>
    intro hmem
    rw [collapseNewlines_cons, if_pos rfl] at hmem
    rcases List.mem_append.mp hmem with h1 | h1
    · split at h1
      · simp at h1; right; exact h1
      · rcases List.mem_cons.mp h1 with h2 | h2
        · right; exact h2
        · right
          have h4 := List.mem_takeWhile_imp (p := fun x => decide (x = '\n')) h2
          simpa using h4
    · rcases ih h1 with h2 | h2
      · left; exact List.mem_cons_of_mem _ ((List.dropWhile_sublist _).subset h2)
      · right; exact h2
  | case3 c cs h ih =>
    intro hmem
    rw [collapseNewlines_cons, if_neg h] at hmem
    rcases List.mem_cons.mp hmem with h1 | h1
    · left; rw [h1]; exact List.mem_cons_self c cs
    · rcases ih h1 with h2 | h2
      · left; exact List.mem_cons_of_mem c h2
      · right; exact h2

theorem spacesNormal_append_newlines {P x : List Char}
    (hP : ∀ a ∈ P, a = '\n') (hx : spacesNormal x) : spacesNormal (P ++ x) := by
  induction P with
  | nil => simpa using hx
  | cons a P ih =>
    have ha : a = '\n' := hP a (List.mem_cons_self a P)
    have hrest : spacesNormal (P ++ x) :=
      ih (fun b hb => hP b (List.mem_cons_of_mem a hb))
    rw [List.cons_append]
    refine ⟨?_, ?_⟩
    · intro hmem
      rcases List.mem_cons.mp hmem with h1 | h1
      · rw [ha] at h1; simp at h1
      · exact hrest.1 h1
    · rw [List.chain'_cons']
      refine ⟨?_, hrest.2⟩
      intro y _ hcon
      rw [ha] at hcon
      simp at hcon

theorem spacesNormal_collapseNewlines {l : List Char} (h : spacesNormal l) :
    spacesNormal (collapseNewlines l) := by
  induction l using collapseNewlines_induct with
  | case1 => simpa [collapseNewlines_nil] using h
  | case2 cs ih =>
    obtain ⟨h1, h2⟩ := h
    have htail : spacesNormal (cs.dropWhile (· = '\n')) := by
      refine ⟨fun hm => h1 (List.mem_cons_of_mem _
        ((List.dropWhile_sublist _).subset hm)), ?_⟩
      exact ((List.chain'_cons'.mp h2).2).suffix (List.dropWhile_suffix _)
    rw [collapseNewlines_cons, if_pos rfl]
    refine spacesNormal_append_newlines ?_ (ih htail)
    intro a ha
    split at ha
    · simpa using ha
    · rcases List.mem_cons.mp ha with h3 | h3
      · exact h3
      · have h4 := List.mem_takeWhile_imp (p := fun x => decide (x = '\n')) h3
        simpa using h4
  | case3 c cs hc ih =>
    obtain ⟨h1, h2⟩ := h
    have htail : spacesNormal cs :=
      ⟨fun hm => h1 (List.mem_cons_of_mem c hm), (List.chain'_cons'.mp h2).2⟩
    rw [collapseNewlines_cons, if_neg hc]
    refine ⟨?_, ?_⟩
    · intro hmem
      rcases List.mem_cons.mp hmem with h3 | h3
      · exact h1 (h3 ▸ List.mem_cons_self c cs)
      · rcases mem_collapseNewlines h3 with h4 | h4
        · exact h1 (List.mem_cons_of_mem c h4)
        · simp at h4
    · rw [List.chain'_cons']
      refine ⟨?_, (ih htail).2⟩
      intro y hy
      cases cs with
      | nil => simp [collapseNewlines_nil] at hy
      | cons d t =>
        rw [collapseNewlines_head] at hy
        simp only [Option.mem_def, Option.some.injEq] at hy
        subst hy
        exact (List.chain'_cons'.mp h2).1 d (by simp)

theorem triple_prefix_head {x : List Char} (h : ['\n', '\n', '\n'] <+: x) :
    x.head? = some '\n' := by
  rcases h with ⟨t, rfl⟩; rfl

theorem double_prefix_head {x : List Char} (h : ['\n', '\n'] <+: x) :
    x.head? = some '\n' := by
  rcases h with ⟨t, rfl⟩; rfl

theorem single_prefix_head {x : List Char} (h : ['\n'] <+: x) :
    x.head? = some '\n' := by
  rcases h with ⟨t, rfl⟩; rfl

theorem noTriple_cons {c : Char} {x : List Char}
    (hx : noTripleNewline x) (hp : ¬ (['\n', '\n', '\n'] <+: c :: x)) :
    noTripleNewline (c :: x) := by
  intro hinf
  rcases List.infix_cons_iff.mp hinf with h | h
  · exact hp h
  · exact hx h

/-- Prepending one newline to a list that does not begin with a newline and
has no triple-newline run keeps the property. -/
theorem noTriple_one_newline {x : List Char}
    (hx : noTripleNewline x) (hh : x.head? ≠ some '\n') :
    noTripleNewline ('\n' :: x) := by
  refine noTriple_cons hx ?_
  intro hp
  rcases List.cons_prefix_cons.mp hp with ⟨-, h2⟩
  exact hh (double_prefix_head h2)

/-- Prepending two newlines likewise. -/
theorem noTriple_two_newlines {x : List Char}
    (hx : noTripleNewline x) (hh : x.head? ≠ some '\n') :
    noTripleNewline ('\n' :: '\n' :: x) := by
  refine noTriple_cons (noTriple_one_newline hx hh) ?_
  intro hp
  rcases List.cons_prefix_cons.mp hp with ⟨-, h2⟩
  rcases List.cons_prefix_cons.mp h2 with ⟨-, h3⟩
  exact hh (single_prefix_head h3)

/-- The head of the collapsed suffix after dropping a newline run is not a
newline. -/
theorem collapseNewlines_dropWhile_head {cs : List Char} {c : Char}
    (h : (collapseNewlines (cs.dropWhile (· = '\n'))).head? = some c) :
    c ≠ '\n' := by
  cases hd : cs.dropWhile (· = '\n') with
  | nil => rw [hd] at h; simp [collapseNewlines_nil] at h
  | cons d t =>
    rw [hd, collapseNewlines_head] at h
    have hdc : (fun x => decide (x = '\n')) d = false :=
      head_dropWhile_not (p := fun x => decide (x = '\n')) hd
    simp only [Option.some.injEq] at h
    subst h
    simpa using hdc

theorem noTriple_collapseNewlines (l : List Char) :
    noTripleNewline (collapseNewlines l) := by
  induction l using collapseNewlines_induct with
  | case1 =>
    intro hinf
    rw [collapseNewlines_nil] at hinf
    have h0 := List.eq_nil_of_infix_nil hinf
    simp at h0
  | case2 cs ih =>
    rw [collapseNewlines_cons, if_pos rfl]
    have hhead : (collapseNewlines (cs.dropWhile (· = '\n'))).head? ≠ some '\n' := by
      intro hh
      exact collapseNewlines_dropWhile_head hh rfl
    split
    · exact noTriple_two_newlines ih hhead
    · rename_i hlen
      have htw : ∀ a ∈ cs.takeWhile (· = '\n'), a = '\n' := by
        intro a ha
        have h4 := List.mem_takeWhile_imp (p := fun x => decide (x = '\n')) ha
        simpa using h4
      have hle : (cs.takeWhile (· = '\n')).length ≤ 1 := by omega
      cases htww : cs.takeWhile (· = '\n') with
      | nil => simpa using noTriple_one_newline ih hhead
      | cons a t =>
        cases t with
        | nil =>
          have ha : a = '\n' := htw a (by rw [htww]; exact List.mem_cons_self a [])
          subst ha
          simpa using noTriple_two_newlines ih hhead
        | cons b u => rw [htww] at hle; simp at hle
  | case3 c cs h ih =>
    rw [collapseNewlines_cons, if_neg h]
    refine noTriple_cons ih ?_
    intro hp
    exact h ((List.cons_prefix_cons.mp hp).1).symm

theorem collapseNewlines_eq_self {l : List Char} (h : noTripleNewline l) :
    collapseNewlines l = l := by
  induction l using collapseNewlines_induct with
  | case1 => simp [collapseNewlines_nil]
  | case2 cs ih =>
    have hrun : ¬ 2 ≤ (cs.takeWhile (· = '\n')).length := by
      intro h2
      apply h
      cases cs with
      | nil => simp at h2
      | cons a cs' =>
        rw [List.takeWhile_cons] at h2
        by_cases ha : a = '\n'
        · rw [if_pos (by simpa using ha)] at h2
          simp only [List.length_cons] at h2
          cases cs' with
          | nil => simp at h2
          | cons b cs'' =>
            rw [List.takeWhile_cons] at h2
            by_cases hb : b = '\n'
            · subst ha; subst hb
              exact (List.prefix_iff_eq_take.mpr rfl |>.isInfix)
            · rw [if_neg (by simpa using hb)] at h2
              simp at h2
        · rw [if_neg (by simpa using ha)] at h2
          simp at h2
    have htail : noTripleNewline (cs.dropWhile (· = '\n')) := by
      intro hinf
      exact h (hinf.trans
        (((List.dropWhile_suffix _).trans (List.suffix_cons '\n' cs)).isInfix))
    rw [collapseNewlines_cons, if_pos rfl, if_neg hrun, ih htail]
    rw [List.cons_append, List.takeWhile_append_dropWhile]
  | case3 c cs hc ih =>
    have htail : noTripleNewline cs := by
      intro hinf
      exact h (hinf.trans (List.suffix_cons c cs).isInfix)
    rw [collapseNewlines_cons, if_neg hc, ih htail]

theorem spacesNormal_reverse {l : List Char} (h : spacesNormal l) :
    spacesNormal l.reverse := by
  refine ⟨by simpa using h.1, ?_⟩
  rw [List.chain'_reverse]
  exact h.2.imp (fun a b hab hc => hab ⟨hc.2, hc.1⟩)

theorem spacesNormal_dropWhile {l : List Char} (h : spacesNormal l)
    (p : Char → Bool) : spacesNormal (l.dropWhile p) :=
  ⟨fun hm => h.1 ((List.dropWhile_sublist p).subset hm),
   h.2.suffix (List.dropWhile_suffix p)⟩

theorem spacesNormal_pyStripList {l : List Char} (h : spacesNormal l) :
    spacesNormal (pyStripList l) :=
  spacesNormal_reverse
    (spacesNormal_dropWhile (spacesNormal_reverse (spacesNormal_dropWhile h _)) _)

theorem noTriple_dropWhile {l : List Char} (h : noTripleNewline l)
    (p : Char → Bool) : noTripleNewline (l.dropWhile p) := fun hinf =>
  h (hinf.trans (List.dropWhile_suffix p).isInfix)

theorem noTriple_reverse {l : List Char} (h : noTripleNewline l) :
    noTripleNewline l.reverse := by
  intro hinf
  have h3 : (['\n', '\n', '\n'] : List Char).reverse = ['\n', '\n', '\n'] := rfl
  rw [← h3] at hinf
  exact h (List.reverse_infix.mp hinf)

theorem noTriple_pyStripList {l : List Char} (h : noTripleNewline l) :
    noTripleNewline (pyStripList l) :=
  noTriple_reverse (noTriple_dropWhile (noTriple_reverse (noTriple_dropWhile h _)) _)

theorem dropWhile_eq_self_of_head {p : α → Bool} {l : List α}
    (h : ∀ c, l.head? = some c → p c = false) : l.dropWhile p = l := by
  cases l with
  | nil => rfl
  | cons a t => rw [List.dropWhile_cons, if_neg (by simp [h a rfl])]

theorem getLast?_dropWhile_of_ne_nil {p : α → Bool} {l : List α}
    (h : l.dropWhile p ≠ []) : (l.dropWhile p).getLast? = l.getLast? := by
  obtain ⟨t, ht⟩ := List.dropWhile_suffix (l := l) p
  conv_rhs => rw [← ht]
  rw [List.getLast?_append]
  cases hl : (l.dropWhile p).getLast? with
  | none =>
    exact absurd (by simpa using hl) h
  | some a => rfl

theorem pyStripList_head {l : List Char} {c : Char}
    (h : (pyStripList l).head? = some c) : isPyWs c = false := by
  unfold pyStripList at h
  rw [List.head?_reverse] at h
  by_cases hw : (l.dropWhile isPyWs).reverse.dropWhile isPyWs = []
  · rw [hw] at h; simp at h
  · rw [getLast?_dropWhile_of_ne_nil hw, List.getLast?_reverse] at h
    cases hd : l.dropWhile isPyWs with
    | nil => rw [hd] at h; simp at h
    | cons a t =>
      rw [hd] at h
      simp only [List.head?_cons, Option.some.injEq] at h
      exact h ▸ head_dropWhile_not hd


theorem pyStripList_getLast {l : List Char} {c : Char}
    (h : (pyStripList l).getLast? = some c) : isPyWs c = false := by
  unfold pyStripList at h
  rw [List.getLast?_reverse] at h
  cases hd : (l.dropWhile isPyWs).reverse.dropWhile isPyWs with
  | nil => rw [hd] at h; simp at h
  | cons a t =>
    rw [hd] at h
    simp only [List.head?_cons, Option.some.injEq] at h
    exact h ▸ head_dropWhile_not hd

theorem pyStripList_eq_self {l : List Char}
    (hh : ∀ c, l.head? = some c → isPyWs c = false)
    (hl : ∀ c, l.getLast? = some c → isPyWs c = false) :
    pyStripList l = l := by
  unfold pyStripList
  rw [dropWhile_eq_self_of_head hh]
  rw [dropWhile_eq_self_of_head
    (by intro c hc; rw [List.head?_reverse] at hc; exact hl c hc)]
  exact List.reverse_reverse l

theorem pyStripList_idempotent (l : List Char) :
    pyStripList (pyStripList l) = pyStripList l :=
  pyStripList_eq_self (fun _ h => pyStripList_head h)
    (fun _ h => pyStripList_getLast h)

theorem normalizeChars_idempotent (l : List Char) :
    normalizeChars (normalizeChars l) = normalizeChars l := by
  have hsp : spacesNormal (normalizeChars l) :=
    spacesNormal_pyStripList
      (spacesNormal_collapseNewlines (spacesNormal_collapseSpaces l))
  have hnt : noTripleNewline (normalizeChars l) :=
    noTriple_pyStripList (noTriple_collapseNewlines (collapseSpaces l))
  show pyStripList (collapseNewlines (collapseSpaces (normalizeChars l))) =
    normalizeChars l
  rw [collapseSpaces_eq_self hsp, collapseNewlines_eq_self hnt]
  exact pyStripList_idempotent _

theorem normalizeText_idem (s : String) :
    normalizeText (normalizeText s) = normalizeText s := by
  show String.mk (normalizeChars (normalizeChars s.data)) =
    String.mk (normalizeChars s.data)
  rw [normalizeChars_idempotent]

/-- C10: `_normalize_text` (main.py 48-52 and its identical copy at
pdf_tool.py 13-16) is idempotent: collapsing horizontal-whitespace runs,
collapsing 3+ newline runs to 2, and trimming, applied twice, equal applying
them once; consequently re-normalizing an already-normalized stored resume
text does not alter it. -/
theorem claim_C10_normalize_idempotent (s : String) :
    normalizeText (normalizeText s) = normalizeText s :=
  normalizeText_idem s

/-! ### Content overlap and the reasonableness gate (C6, C7, C8) -/

/-- C6: `_content_overlap_ratio` returns the fraction of generated tokens
(lower-cased maximal alphanumeric runs) that are members of the set of source
tokens; the result always lies in [0, 1]; and it equals 0 when the generated
text yields no tokens (never a division by zero). -/
theorem claim_C6_overlap_frac_spec (s g : String) :
    contentOverlapFrac s g =
      (((tokensOf g).filter (fun t => decide (t ∈ tokensOf s))).length : ℚ) /
        ((max (tokensOf g).length 1 : Nat) : ℚ)
    ∧ 0 ≤ contentOverlapFrac s g
    ∧ contentOverlapFrac s g ≤ 1
    ∧ (tokensOf g = [] → contentOverlapFrac s g = 0) := by
  have hform : contentOverlapFrac s g =
      (((tokensOf g).filter (fun t => decide (t ∈ tokensOf s))).length : ℚ) /
        ((max (tokensOf g).length 1 : Nat) : ℚ) := by
    unfold contentOverlapFrac
    by_cases hg : (tokensOf g).isEmpty
    · rw [if_pos hg]
      rw [List.isEmpty_iff] at hg
      rw [hg]
      simp
    · rw [if_neg hg]
  have hden : (0 : ℚ) < ((max (tokensOf g).length 1 : Nat) : ℚ) := by
    have : 1 ≤ max (tokensOf g).length 1 := le_max_right _ _
    exact_mod_cast Nat.lt_of_lt_of_le Nat.zero_lt_one this
  have hnum : (((tokensOf g).filter (fun t => decide (t ∈ tokensOf s))).length : ℚ)
      ≤ ((max (tokensOf g).length 1 : Nat) : ℚ) := by
    have h1 : ((tokensOf g).filter (fun t => decide (t ∈ tokensOf s))).length
        ≤ max (tokensOf g).length 1 :=
      Nat.le_trans (List.length_filter_le _ _) (le_max_left _ _)
    exact_mod_cast h1
  refine ⟨hform, ?_, ?_, ?_⟩
  · rw [hform]
    exact div_nonneg (by positivity) (le_of_lt hden)
  · rw [hform]
    exact (div_le_one hden).mpr hnum
  · intro hg
    unfold contentOverlapFrac
    rw [if_pos (by rw [hg]; rfl)]

/-- C6 witness: at a concrete input with no generated tokens the ratio is 0. -/
theorem claim_C6_witness : contentOverlapFrac "abc" "" = 0 :=
  (claim_C6_overlap_frac_spec "abc" "").2.2.2 (by decide)

theorem tokens_example_src : tokensOf "Jane built APIs" = ["jane", "built", "apis"] := by
  decide

theorem tokens_example_gen : tokensOf "Jane built amazing APIs and rockets" =
    ["jane", "built", "amazing", "apis", "and", "rockets"] := by
  decide

theorem filter_example_overlap :
    (["jane", "built", "amazing", "apis", "and", "rockets"].filter
      (fun t => decide (t ∈ ["jane", "built", "apis"]))) = ["jane", "built", "apis"] := by
  decide

theorem overlap_example_value :
    contentOverlapFrac "Jane built APIs" "Jane built amazing APIs and rockets"
      = 1/2 := by
  unfold contentOverlapFrac
  rw [tokens_example_src, tokens_example_gen]
  dsimp only
  rw [filter_example_overlap]
  norm_num

/-- C7 counterexample: on the spec's own example the code returns 1/2 — 3 of
the 6 generated tokens (`jane built amazing apis and rockets`) are attested in
the source — not the documented 0.6. -/
theorem claim_C7_counterexample :
    contentOverlapFrac "Jane built APIs" "Jane built amazing APIs and rockets"
      = 1/2
    ∧ (1/2 : ℚ) ≠ 3/5 := by
  refine ⟨overlap_example_value, by norm_num⟩

/-- C7 (amended): the example returns 0.5, reflecting 3 of 6 generated tokens
found in the source; and the ratio of any source against empty generated text
is 0. -/
theorem claim_C7_amended :
    contentOverlapFrac "Jane built APIs" "Jane built amazing APIs and rockets"
      = 1/2
    ∧ (∀ s : String, contentOverlapFrac s "" = 0) := by
  refine ⟨overlap_example_value, ?_⟩
  intro s
  unfold contentOverlapFrac
  rw [if_pos (by decide)]

set_option maxRecDepth 40000 in
/-- C8: the reasonableness gate accepts a text iff its length is at least 200
and its alphabetic fraction strictly exceeds 0.4; a 199-character alphabetic
string fails; a 200-character 45%-alphabetic string passes; a 200-character
39%-alphabetic string fails; and a text failing the gate makes
`_set_resume_outputs` raise `LowQualityOutput`. -/
theorem claim_C8_reasonableness_gate :
    (∀ text : String, isReasonableResumeText text = true ↔
      200 ≤ text.length ∧
        (2/5 : ℚ) < ((text.data.filter Char.isAlpha).length : ℚ) / (text.length : ℚ))
    ∧ isReasonableResumeText (String.mk (List.replicate 199 'a')) = false
    ∧ isReasonableResumeText
        (String.mk (List.replicate 90 'a' ++ List.replicate 110 ' ')) = true
    ∧ isReasonableResumeText
        (String.mk (List.replicate 78 'a' ++ List.replicate 122 ' ')) = false
    ∧ (∀ (pdfExists : String → Bool) (pkg : ResumePackage)
        (t p : String) (fb : Json) (a sk : List String) (hit : Bool),
        isReasonableResumeText (normalizeText t) = false →
        setResumeOutputs pdfExists pkg t p fb a sk hit =
          Except.error PipelineError.lowQualityOutput) := by
  refine ⟨?_, by decide, by decide, by decide, ?_⟩
  · intro text
    unfold isReasonableResumeText
    by_cases hlen : text.length < 200
    · rw [if_pos hlen]
      simp only [Bool.false_eq_true, false_iff]
      intro hcon
      omega
    · rw [if_neg hlen]
      have hmax : max text.length 1 = text.length :=
        Nat.max_eq_left (by omega)
      by_cases hz : (text.data.filter Char.isAlpha).length = 0
      · rw [if_pos hz]
        simp only [Bool.false_eq_true, false_iff]
        rintro ⟨-, h2⟩
        rw [hz] at h2
        norm_num at h2
      · rw [if_neg hz, decide_eq_true_eq, Rat.divInt_eq_div, Rat.divInt_eq_div, hmax]
        push_cast
        constructor
        · intro h
          exact ⟨by omega, h⟩
        · intro h
          exact h.2
  · intro pdfExists pkg t p fb a sk hit h
    unfold setResumeOutputs
    rw [if_pos h]

/-- C8 witness: a concrete low-quality text makes `_set_resume_outputs` fail
with `LowQualityOutput`. -/
theorem claim_C8_witness :
    setResumeOutputs (fun _ => true) initialPackage "x" "p" Json.null [] [] false =
      Except.error PipelineError.lowQualityOutput :=
  claim_C8_reasonableness_gate.2.2.2.2 (fun _ => true) initialPackage
    "x" "p" Json.null [] [] false (by decide)

/-! ### Fingerprint (C4) -/

/-- C4 counterexample: two distinct request texts whose normalizations agree
("a b" and "a  b") yield the identical cache key — the collapse happens in
the signature before any hashing, so this holds for every digest function;
it is exhibited with the concrete model digest.  "Changing the request text
changes the key" is therefore false as stated. -/
theorem claim_C4_counterexample :
    computeFingerprint modelDigestBytes modelDigestString FLOW_VERSION
        [37, 80, 68, 70] "a b" =
      computeFingerprint modelDigestBytes modelDigestString FLOW_VERSION
        [37, 80, 68, 70] "a  b"
    ∧ "a b" ≠ "a  b" := by
  constructor
  · decide
  · decide

theorem append_pipe_inj {a₁ a₂ t₁ t₂ : List Char}
    (ha₁ : '|' ∉ a₁) (ha₂ : '|' ∉ a₂)
    (h : a₁ ++ '|' :: t₁ = a₂ ++ '|' :: t₂) : a₁ = a₂ ∧ t₁ = t₂ := by
  induction a₁ generalizing a₂ with
  | nil =>
    cases a₂ with
    | nil => simpa using h
    | cons c a₂ =>
      simp only [List.nil_append, List.cons_append, List.cons.injEq] at h
      exact absurd (h.1 ▸ List.mem_cons_self c a₂) ha₂
  | cons c a₁ ih =>
    cases a₂ with
    | nil =>
      simp only [List.nil_append, List.cons_append, List.cons.injEq] at h
      exact absurd (h.1.symm ▸ List.mem_cons_self c a₁) ha₁
    | cons d a₂ =>
      simp only [List.cons_append, List.cons.injEq] at h
      obtain ⟨h1, h2⟩ := h
      have hrec := ih (fun hm => ha₁ (List.mem_cons_of_mem _ hm))
        (fun hm => ha₂ (List.mem_cons_of_mem _ hm)) h2
      exact ⟨by rw [h1, hrec.1], hrec.2⟩

/-- C4 (amended): the fingerprint is a pure function of (version, source-byte
digest, normalized request): equal source digests and equal normalized
requests give the identical key — in particular, request texts that normalize
identically collide; and for pipe-free version and source-hash strings the
signature fed to the hash determines and is determined by the components, so
changing the version, the source hash, or the *normalized* request changes
the signature (hence, absent digest collisions, the key). -/
theorem claim_C4_amended :
    (∀ (shaB : List Nat → String) (shaS : String → String) (v : String)
       (b₁ b₂ : List Nat) (r₁ r₂ : String),
       shaB b₁ = shaB b₂ → normalizeText r₁ = normalizeText r₂ →
       computeFingerprint shaB shaS v b₁ r₁ = computeFingerprint shaB shaS v b₂ r₂)
    ∧ (∀ v₁ v₂ h₁ h₂ r₁ r₂ : String,
       '|' ∉ v₁.data → '|' ∉ v₂.data → '|' ∉ h₁.data → '|' ∉ h₂.data →
       (fingerprintSignature v₁ h₁ r₁ = fingerprintSignature v₂ h₂ r₂ ↔
         v₁ = v₂ ∧ h₁ = h₂ ∧ normalizeText r₁ = normalizeText r₂)) := by
  constructor
  · intro shaB shaS v b₁ b₂ r₁ r₂ hb hr
    unfold computeFingerprint fingerprintSignature
    rw [hb, hr]
  · intro v₁ v₂ h₁ h₂ r₁ r₂ hv₁ hv₂ hh₁ hh₂
    constructor
    · intro heq
      unfold fingerprintSignature at heq
      rw [String.ext_iff] at heq
      simp only [String.data_append,
        show ("|" : String).data = ['|'] from rfl, List.append_assoc,
        List.cons_append, List.nil_append] at heq
      obtain ⟨hv, hrest⟩ := append_pipe_inj hv₁ hv₂ heq
      obtain ⟨hh, hn⟩ := append_pipe_inj hh₁ hh₂ hrest
      exact ⟨String.ext hv, String.ext hh, String.ext hn⟩
    · intro ⟨hv, hh, hn⟩
      unfold fingerprintSignature
      rw [hv, hh, hn]

/-- C4 witness: purity applied at a concrete input — a space run and a tab
normalize alike, so the keys agree. -/
theorem claim_C4_witness :
    computeFingerprint modelDigestBytes modelDigestString FLOW_VERSION [1] "a b" =
      computeFingerprint modelDigestBytes modelDigestString FLOW_VERSION [1] "a\tb" :=
  claim_C4_amended.1 modelDigestBytes modelDigestString FLOW_VERSION [1] [1]
    "a b" "a\tb" rfl (by decide)

/-! ### Structured output extraction (C3) -/

/-- When the direct-parse attempt yields no object (parse failure or a value
of non-object shape), `_extract_json_object` proceeds to the fenced-block and
brace-scan attempts. -/
theorem extract_attempt1_fails {raw : String}
    (h1 : ∀ kvs, jsonParse (pyStrip raw) ≠ some (Json.obj kvs)) :
    extractJsonObject raw =
      match fenceSearch (pyStrip raw).data with
      | some cap =>
        match jsonParse (String.mk cap) with
        | none => Except.error ExtractError.jsonDecodeError
        | some (Json.obj kvs) => Except.ok kvs
        | some _ => extractBraceScan (pyStrip raw)
      | none => extractBraceScan (pyStrip raw) := by
  unfold extractJsonObject
  dsimp only
  cases hj : jsonParse (pyStrip raw) with
  | none => rfl
  | some v =>
    cases v with
    | obj kvs => exact absurd hj (h1 kvs)
    | null => rfl
    | bool b => rfl
    | num n => rfl
    | str s => rfl
    | arr xs => rfl

/-- C3 counterexample: on `"x { y }"` no attempt recovers an object, yet the
operation does not fail with the MalformedOutput exception of main.py 136 —
the brace-scan substring `"{ y }"` is passed to `json.loads` outside any
`try`, so the decode error propagates instead. -/
theorem claim_C3_counterexample :
    extractJsonObject "x \x7b y \x7d" = Except.error ExtractError.jsonDecodeError
    ∧ ExtractError.jsonDecodeError ≠ ExtractError.malformedOutput :=
  ⟨rfl, by decide⟩

/-- C3 (amended): the three attempts run in order and the first yielding an
object wins — a parseable value of the wrong shape in attempt 1 falls
through; when no brace-delimited span exists the operation fails with
MalformedOutput; but a fenced block or brace-scan span that fails to parse
propagates the JSON decode error instead of MalformedOutput.  The four
documented examples behave as listed (the no-braces input does raise
MalformedOutput). -/
theorem claim_C3_amended :
    (∀ (raw : String) (kvs : List (String × Json)),
       jsonParse (pyStrip raw) = some (Json.obj kvs) →
       extractJsonObject raw = Except.ok kvs)
    ∧ (∀ (raw : String) (cap : List Char) (kvs : List (String × Json)),
       (∀ k, jsonParse (pyStrip raw) ≠ some (Json.obj k)) →
       fenceSearch (pyStrip raw).data = some cap →
       jsonParse (String.mk cap) = some (Json.obj kvs) →
       extractJsonObject raw = Except.ok kvs)
    ∧ (∀ (raw : String) (s e : Nat) (kvs : List (String × Json)),
       (∀ k, jsonParse (pyStrip raw) ≠ some (Json.obj k)) →
       fenceSearch (pyStrip raw).data = none →
       pyFind '{' (pyStrip raw).data = some s →
       pyRFind '}' (pyStrip raw).data = some e →
       s < e →
       jsonParse (String.mk (((pyStrip raw).data.drop s).take (e + 1 - s)))
         = some (Json.obj kvs) →
       extractJsonObject raw = Except.ok kvs)
    ∧ (∀ (raw : String) (s e : Nat),
       (∀ k, jsonParse (pyStrip raw) ≠ some (Json.obj k)) →
       fenceSearch (pyStrip raw).data = none →
       pyFind '{' (pyStrip raw).data = some s →
       pyRFind '}' (pyStrip raw).data = some e →
       s < e →
       jsonParse (String.mk (((pyStrip raw).data.drop s).take (e + 1 - s)))
         = none →
       extractJsonObject raw = Except.error ExtractError.jsonDecodeError)
    ∧ (∀ raw : String,
       (∀ k, jsonParse (pyStrip raw) ≠ some (Json.obj k)) →
       fenceSearch (pyStrip raw).data = none →
       pyFind '{' (pyStrip raw).data = none →
       extractJsonObject raw = Except.error ExtractError.malformedOutput)
    ∧ extractJsonObject " \x7b\"a\":1\x7d " = Except.ok [("a", Json.num 1)]
    ∧ extractJsonObject "```json\n\x7b\"a\":1\x7d\n```" = Except.ok [("a", Json.num 1)]
    ∧ extractJsonObject "noise \x7b\"a\":1\x7d trailing" = Except.ok [("a", Json.num 1)]
    ∧ extractJsonObject "no braces at all" = Except.error ExtractError.malformedOutput := by
  refine ⟨?_, ?_, ?_, ?_, ?_, rfl, rfl, rfl, rfl⟩
  · intro raw kvs h
    unfold extractJsonObject
    dsimp only
    rw [h]
  · intro raw cap kvs h1 hf hp
    rw [extract_attempt1_fails h1, hf]
    dsimp only
    rw [hp]
  · intro raw s e kvs h1 hf hfind hrfind hse hp
    rw [extract_attempt1_fails h1, hf]
    dsimp only
    unfold extractBraceScan
    rw [hfind, hrfind]
    dsimp only
    rw [if_pos hse, hp]
  · intro raw s e h1 hf hfind hrfind hse hp
    rw [extract_attempt1_fails h1, hf]
    dsimp only
    unfold extractBraceScan
    rw [hfind, hrfind]
    dsimp only
    rw [if_pos hse, hp]
  · intro raw h1 hf hfind
    rw [extract_attempt1_fails h1, hf]
    dsimp only
    unfold extractBraceScan
    rw [hfind]

/-- C3 witness: the second attempt applied at a concrete fenced input with a
non-object direct parse. -/
theorem claim_C3_witness :
    extractJsonObject "[2] \x7b\"b\":3\x7d" = Except.ok [("b", Json.num 3)] :=
  claim_C3_amended.2.2.1 "[2] \x7b\"b\":3\x7d" 4 10 [("b", Json.num 3)]
    (fun k h => Option.noConfusion h) rfl rfl rfl (by decide) rfl

/-! ### Cache store (C2, C9) and pipeline effects (C5) -/

/-- Success characterization of `_set_resume_outputs`. -/
theorem setResumeOutputs_ok {pdfExists : String → Bool} {pkg0 : ResumePackage}
    {t p : String} {fb : Json} {a sk : List String} {hit : Bool}
    {pkg : ResumePackage}
    (h : setResumeOutputs pdfExists pkg0 t p fb a sk hit = Except.ok pkg) :
    isReasonableResumeText (normalizeText t) = true
    ∧ pdfExists p = true
    ∧ ∃ x xs, fb = Json.arr (x :: xs)
      ∧ pkg = { pkg0 with
          finalResumeText := normalizeText t
          updatedPdfPath := p
          feedbackItems := x :: xs
          appliedUserUpdates := a
          skippedUserUpdates := sk
          cacheHit := hit } := by
  unfold setResumeOutputs at h
  dsimp only at h
  by_cases h1 : isReasonableResumeText (normalizeText t) = false
  · rw [if_pos h1] at h
    exact absurd h (by simp)
  · rw [if_neg h1] at h
    by_cases h2 : pdfExists p = false
    · rw [if_pos h2] at h
      exact absurd h (by simp)
    · rw [if_neg h2] at h
      refine ⟨by simpa using h1, by simpa using h2, ?_⟩
      cases fb with
      | arr l =>
        cases l with
        | nil => exact absurd h (by simp)
        | cons x xs =>
          simp only [Except.ok.injEq] at h
          exact ⟨x, xs, rfl, h.symm⟩
      | null => exact absurd h (by simp)
      | bool b => exact absurd h (by simp)
      | num n => exact absurd h (by simp)
      | str s => exact absurd h (by simp)
      | obj kvs => exact absurd h (by simp)

theorem map_pyStr_map_str (ys : List String) :
    (ys.map Json.str).map pyStr = ys := by
  induction ys with
  | nil => rfl
  | cons y ys ih =>
    simp only [List.map_cons]
    rw [ih]
    rfl

/-- Loading the record `_save_resume_cache` writes for a validated package
succeeds and rebuilds the package fields (with the hit flag set). -/
theorem loadResumeCache_saved (pdfExists : String → Bool)
    (pkgPre : ResumePackage) (now : String) (pkg : ResumePackage)
    (hnorm : normalizeText pkg.finalResumeText = pkg.finalResumeText)
    (hq : isReasonableResumeText pkg.finalResumeText = true)
    (hpdf : pdfExists pkg.updatedPdfPath = true)
    (x : Json) (xs : List Json) (hfb : pkg.feedbackItems = x :: xs) :
    loadResumeCache pdfExists pkgPre
        (some (some (saveResumeCachePayload now pkg))) =
      Except.ok (some ({ pkgPre with
        finalResumeText := pkg.finalResumeText
        updatedPdfPath := pkg.updatedPdfPath
        feedbackItems := pkg.feedbackItems
        appliedUserUpdates := pkg.appliedUserUpdates
        skippedUserUpdates := pkg.skippedUserUpdates
        cacheHit := true }, [PipelineEffect.writeArtifacts])) := by
  have happly : applyPayload pdfExists pkgPre (cacheRecordFields now pkg) true =
      Except.ok { pkgPre with
        finalResumeText := pkg.finalResumeText
        updatedPdfPath := pkg.updatedPdfPath
        feedbackItems := pkg.feedbackItems
        appliedUserUpdates := pkg.appliedUserUpdates
        skippedUserUpdates := pkg.skippedUserUpdates
        cacheHit := true } := by
    have hstep : applyPayload pdfExists pkgPre (cacheRecordFields now pkg) true =
        setResumeOutputs pdfExists pkgPre pkg.finalResumeText pkg.updatedPdfPath
          (Json.arr pkg.feedbackItems)
          ((pkg.appliedUserUpdates.map Json.str).map pyStr)
          ((pkg.skippedUserUpdates.map Json.str).map pyStr) true := rfl
    rw [hstep, map_pyStr_map_str, map_pyStr_map_str]
    unfold setResumeOutputs
    dsimp only
    rw [hnorm, if_neg (by simp [hq]), if_neg (by simp [hpdf]), hfb]
  show loadResumeCache pdfExists pkgPre
      (some (some (Json.obj (cacheRecordFields now pkg)))) = _
  unfold loadResumeCache
  dsimp only
  rw [if_pos (show requiredKeys.all
    (fun k => (jsonGet (cacheRecordFields now pkg) k).isSome) = true from rfl)]
  rw [happly]

/-- C2 counterexample: a cache file containing valid JSON that is not an
object — the array `[1]` — is a malformed record, yet `_load_resume_cache`
does not report a miss: `required - set(payload.keys())` raises
`AttributeError` on the non-dict payload (main.py 248) and the run aborts. -/
theorem claim_C2_counterexample :
    loadResumeCache (fun _ => true) initialPackage
        (some (some (Json.arr [Json.num 1]))) =
      Except.error PipelineError.attributeError
    ∧ Except.error PipelineError.attributeError ≠
        (Except.ok none :
          Except PipelineError (Option (ResumePackage × List PipelineEffect))) :=
  ⟨rfl, fun h => Except.noConfusion h⟩

/-- C2 (amended): a missing record file, a file that fails JSON parsing, and
a parsed JSON *object* missing a required field each downgrade to a cache
miss (the `return False` paths) and are never propagated; however a record
whose top-level JSON value is not an object aborts the run with an
AttributeError (and a record with all required keys whose values fail output
validation aborts likewise), so not every corrupted record is downgraded. -/
theorem claim_C2_amended :
    (∀ (pdfExists : String → Bool) (pkg : ResumePackage),
       loadResumeCache pdfExists pkg none = Except.ok none)
    ∧ (∀ (pdfExists : String → Bool) (pkg : ResumePackage),
       loadResumeCache pdfExists pkg (some none) = Except.ok none)
    ∧ (∀ (pdfExists : String → Bool) (pkg : ResumePackage)
        (kvs : List (String × Json)),
       ¬ (requiredKeys.all (fun k => (jsonGet kvs k).isSome) = true) →
       loadResumeCache pdfExists pkg (some (some (Json.obj kvs))) = Except.ok none)
    ∧ (∀ (pdfExists : String → Bool) (pkg : ResumePackage) (v : Json),
       (∀ kvs, v ≠ Json.obj kvs) →
       loadResumeCache pdfExists pkg (some (some v)) =
         Except.error PipelineError.attributeError) := by
  refine ⟨fun _ _ => rfl, fun _ _ => rfl, ?_, ?_⟩
  · intro pdfE pkg kvs h
    unfold loadResumeCache
    dsimp only
    rw [if_neg h]
  · intro pdfE pkg v hv
    cases v with
    | obj kvs => exact absurd rfl (hv kvs)
    | null => rfl
    | bool b => rfl
    | num n => rfl
    | str s => rfl
    | arr l => rfl

/-- C2 witness: an object missing `updated_pdf_path` and `feedback_items` is
reported as a miss. -/
theorem claim_C2_witness :
    loadResumeCache (fun _ => true) initialPackage
        (some (some (Json.obj [("final_resume_text", Json.str "t")]))) =
      Except.ok none :=
  claim_C2_amended.2.2.1 (fun _ => true) initialPackage
    [("final_resume_text", Json.str "t")] (by decide)

/-- C9: a cache record accepted by the validator (`_set_resume_outputs`
succeeded on it) and saved under its key is reproduced by a subsequent load
of that record: the load succeeds and yields the identical final resume
text, identical feedback items, and identical applied/skipped update lists. -/
theorem claim_C9_round_trip
    (pdfExists : String → Bool) (pkg0 pkgPre : ResumePackage)
    (t p : String) (fb : Json) (a sk : List String) (hit : Bool)
    (now : String) (pkg : ResumePackage)
    (hsave : setResumeOutputs pdfExists pkg0 t p fb a sk hit = Except.ok pkg) :
    ∃ pkg', loadResumeCache pdfExists pkgPre
        (some (some (saveResumeCachePayload now pkg))) =
          Except.ok (some (pkg', [PipelineEffect.writeArtifacts]))
      ∧ pkg'.finalResumeText = pkg.finalResumeText
      ∧ pkg'.feedbackItems = pkg.feedbackItems
      ∧ pkg'.appliedUserUpdates = pkg.appliedUserUpdates
      ∧ pkg'.skippedUserUpdates = pkg.skippedUserUpdates := by
  obtain ⟨hq, hpdf, x, xs, hfb, hpkg⟩ := setResumeOutputs_ok hsave
  have hfinal : pkg.finalResumeText = normalizeText t := by rw [hpkg]
  have hnorm : normalizeText pkg.finalResumeText = pkg.finalResumeText := by
    rw [hfinal, normalizeText_idem]
  have hq' : isReasonableResumeText pkg.finalResumeText = true := by
    rw [hfinal]; exact hq
  have hpdf' : pdfExists pkg.updatedPdfPath = true := by
    rw [hpkg]; exact hpdf
  have hfb' : pkg.feedbackItems = x :: xs := by rw [hpkg]
  exact ⟨_, loadResumeCache_saved pdfExists pkgPre now pkg hnorm hq' hpdf' x xs hfb',
    rfl, rfl, rfl, rfl⟩

set_option maxRecDepth 100000 in
/-- C9 witness: the round trip applied to a concrete validated record. -/
theorem claim_C9_witness :
    ∃ pkg', loadResumeCache (fun _ => true) initialPackage
        (some (some (saveResumeCachePayload "t0" examplePackage))) =
          Except.ok (some (pkg', [PipelineEffect.writeArtifacts]))
      ∧ pkg'.finalResumeText = examplePackage.finalResumeText
      ∧ pkg'.feedbackItems = examplePackage.feedbackItems
      ∧ pkg'.appliedUserUpdates = examplePackage.appliedUserUpdates
      ∧ pkg'.skippedUserUpdates = examplePackage.skippedUserUpdates :=
  claim_C9_round_trip (fun _ => true) initialPackage initialPackage
    exampleText "p.pdf" (Json.arr [Json.str "ok"]) [] [] false "t0"
    examplePackage (by rfl)

theorem applyPayload_ok_cacheHit {pdfExists : String → Bool}
    {pkg : ResumePackage} {kvs : List (String × Json)} {hit : Bool}
    {pkg1 : ResumePackage}
    (h : applyPayload pdfExists pkg kvs hit = Except.ok pkg1) :
    pkg1.cacheHit = hit := by
  unfold applyPayload at h
  dsimp only at h
  cases h1 : pyIter (jsonGetD kvs "applied_user_updates" (Json.arr [])) with
  | none => rw [h1] at h; exact absurd h (by simp)
  | some appliedItems =>
    rw [h1] at h
    cases h2 : pyIter (jsonGetD kvs "skipped_user_updates" (Json.arr [])) with
    | none => rw [h2] at h; exact absurd h (by simp)
    | some skippedItems =>
      rw [h2] at h
      obtain ⟨-, -, x, xs, -, hpkg⟩ := setResumeOutputs_ok h
      rw [hpkg]

set_option maxRecDepth 100000 in
/-- C5 counterexample: a run satisfied from a valid cache record reaches the
persisted state performing only the artifact write — no cache save — so
"both a cache save and an artifact write are performed regardless of
hit/fresh" is false on the cache-hit path. -/
theorem claim_C5_counterexample :
    (runResumePipeline (fun _ => true) initialPackage
        (some (some exampleCacheRecord)) "unused").map (fun r => r.2) =
      Except.ok [PipelineEffect.writeArtifacts]
    ∧ PipelineEffect.saveCache ∉ [PipelineEffect.writeArtifacts] :=
  ⟨rfl, by decide⟩

/-- C5 (amended): a fresh generation that reaches the persisted state
performs the artifact write and the cache save (after running the crew); a
cache hit performs only the artifact write, with the hit flag set; and
loading the record saved by a fresh success over the same pre-state yields
exactly the fresh package with the hit flag flipped, whose `review.json`
artifact payload is identical — so callers cannot distinguish a hit from a
fresh run except via the explicit hit flag. -/
theorem claim_C5_amended :
    (∀ (pdfExists : String → Bool) (pkg : ResumePackage) (crewRaw : String)
       (res : ResumePackage × List PipelineEffect),
       stageReviewUpdateRenderPdf pdfExists pkg crewRaw = Except.ok res →
       res.2 = [PipelineEffect.runResumeCrew, PipelineEffect.writeArtifacts,
         PipelineEffect.saveCache])
    ∧ (∀ (pdfExists : String → Bool) (pkg : ResumePackage)
        (cacheFile : CacheFile) (res : ResumePackage × List PipelineEffect),
       loadResumeCache pdfExists pkg cacheFile = Except.ok (some res) →
       res.2 = [PipelineEffect.writeArtifacts] ∧ res.1.cacheHit = true)
    ∧ (∀ (pdfExists : String → Bool) (pkgPre : ResumePackage)
        (t p : String) (fb : Json) (a sk : List String)
        (now now' : String) (pkgF : ResumePackage),
       setResumeOutputs pdfExists pkgPre t p fb a sk false = Except.ok pkgF →
       loadResumeCache pdfExists pkgPre
           (some (some (saveResumeCachePayload now pkgF))) =
         Except.ok (some ({ pkgF with cacheHit := true },
           [PipelineEffect.writeArtifacts]))
       ∧ reviewPayload now' { pkgF with cacheHit := true } =
           reviewPayload now' pkgF) := by
  refine ⟨?_, ?_, ?_⟩
  · intro pdfExists pkg crewRaw res h
    unfold stageReviewUpdateRenderPdf at h
    cases hE : extractJsonObject crewRaw with
    | error e => rw [hE] at h; exact absurd h (by simp)
    | ok kvs =>
      rw [hE] at h
      dsimp only at h
      split at h
      · cases hA : applyPayload pdfExists pkg kvs false with
        | error e => rw [hA] at h; exact absurd h (by simp)
        | ok pkg1 =>
          rw [hA] at h
          simp only [Except.ok.injEq] at h
          rw [← h]
      · exact absurd h (by simp)
  · intro pdfExists pkg cacheFile res h
    match cacheFile with
    | none => exact absurd h (by simp [loadResumeCache])
    | some none => exact absurd h (by simp [loadResumeCache])
    | some (some v) =>
      cases v with
      | obj kvs =>
        unfold loadResumeCache at h
        dsimp only at h
        split at h
        · cases hA : applyPayload pdfExists pkg kvs true with
          | error e => rw [hA] at h; exact absurd h (by simp)
          | ok pkg1 =>
            rw [hA] at h
            simp only [Except.ok.injEq, Option.some.injEq] at h
            rw [← h]
            exact ⟨rfl, applyPayload_ok_cacheHit hA⟩
        · exact absurd h (by simp)
      | null => exact absurd h (by simp [loadResumeCache])
      | bool b => exact absurd h (by simp [loadResumeCache])
      | num n => exact absurd h (by simp [loadResumeCache])
      | str s => exact absurd h (by simp [loadResumeCache])
      | arr l => exact absurd h (by simp [loadResumeCache])
  · intro pdfExists pkgPre t p fb a sk now now' pkgF hsave
    obtain ⟨hq, hpdf, x, xs, hfb, hpkg⟩ := setResumeOutputs_ok hsave
    have hfinal : pkgF.finalResumeText = normalizeText t := by rw [hpkg]
    have hnorm : normalizeText pkgF.finalResumeText = pkgF.finalResumeText := by
      rw [hfinal, normalizeText_idem]
    have hq' : isReasonableResumeText pkgF.finalResumeText = true := by
      rw [hfinal]; exact hq
    have hpdf' : pdfExists pkgF.updatedPdfPath = true := by
      rw [hpkg]; exact hpdf
    have hfb' : pkgF.feedbackItems = x :: xs := by rw [hpkg]
    refine ⟨?_, rfl⟩
    rw [loadResumeCache_saved pdfExists pkgPre now pkgF hnorm hq' hpdf' x xs hfb']
    subst hpkg
    rfl

set_option maxRecDepth 100000 in
/-- C5 witness: the cache-hit conjunct applied to a concrete environment. -/
theorem claim_C5_witness :
    ({ initialPackage with
        finalResumeText := exampleText
        updatedPdfPath := "p.pdf"
        feedbackItems := [Json.str "ok"]
        cacheHit := true }, [PipelineEffect.writeArtifacts]).2 =
      [PipelineEffect.writeArtifacts]
    ∧ ({ initialPackage with
        finalResumeText := exampleText
        updatedPdfPath := "p.pdf"
        feedbackItems := [Json.str "ok"]
        cacheHit := true }, [PipelineEffect.writeArtifacts]).1.cacheHit = true :=
  claim_C5_amended.2.1 (fun _ => true) initialPackage
    (some (some exampleCacheRecord))
    ({ initialPackage with
        finalResumeText := exampleText
        updatedPdfPath := "p.pdf"
        feedbackItems := [Json.str "ok"]
        cacheHit := true }, [PipelineEffect.writeArtifacts]) (by rfl)

/-! ### Binary document encoder (C1) -/

theorem serializeObjs_fst :
    ∀ (objs : List (Nat × List Nat)) (acc : List Nat) (offs : Nat → Nat)
      (cursor : Nat),
      (serializeObjs objs acc offs cursor).1 =
        acc ++ (objs.map (fun q => objBlob q.1 q.2)).flatten := by
  intro objs
  induction objs with
  | nil => intro acc offs cursor; simp [serializeObjs]
  | cons q rest ih =>
    intro acc offs cursor
    obtain ⟨k, body⟩ := q
    show (serializeObjs rest (acc ++ objBlob k body) _ _).1 = _
    rw [ih]
    simp [List.append_assoc]

theorem serializeObjs_offs_notin :
    ∀ (objs : List (Nat × List Nat)) (acc : List Nat) (offs : Nat → Nat)
      (cursor k : Nat), k ∉ objs.map Prod.fst →
      (serializeObjs objs acc offs cursor).2.1 k = offs k := by
  intro objs
  induction objs with
  | nil => intro acc offs cursor k _; rfl
  | cons q rest ih =>
    intro acc offs cursor k hk
    obtain ⟨k', body⟩ := q
    simp only [List.map_cons, List.mem_cons] at hk
    push_neg at hk
    show (serializeObjs rest _ (Function.update offs k' cursor) _).2.1 k = offs k
    rw [ih _ _ _ _ hk.2, Function.update_noteq hk.1]

theorem serializeObjs_offset_prefix :
    ∀ (objs : List (Nat × List Nat)) (acc : List Nat) (offs : Nat → Nat)
      (k : Nat) (body : List Nat),
      (objs.map Prod.fst).Nodup → (k, body) ∈ objs →
      objBlob k body <+:
        ((serializeObjs objs acc offs acc.length).1.drop
          ((serializeObjs objs acc offs acc.length).2.1 k)) := by
  intro objs
  induction objs with
  | nil => intro acc offs k body _ hmem; simp at hmem
  | cons q rest ih =>
    intro acc offs k body hnd hmem
    obtain ⟨k', body'⟩ := q
    simp only [List.map_cons, List.nodup_cons] at hnd
    have hcur : serializeObjs ((k', body') :: rest) acc offs acc.length =
        serializeObjs rest (acc ++ objBlob k' body')
          (Function.update offs k' acc.length)
          (acc ++ objBlob k' body').length := by
      show serializeObjs rest (acc ++ objBlob k' body')
          (Function.update offs k' acc.length)
          (acc.length + (objBlob k' body').length) = _
      rw [List.length_append]
    rcases List.mem_cons.mp hmem with heq | hmem'
    · have hk : k = k' := congrArg Prod.fst heq
      have hb : body = body' := congrArg Prod.snd heq
      subst hk
      subst hb
      rw [hcur, serializeObjs_offs_notin rest _ _ _ k
          (fun hmem2 => hnd.1 hmem2),
        Function.update_same, serializeObjs_fst, List.append_assoc,
        List.drop_left]
      exact List.prefix_append _ _
    · rw [hcur]
      exact ih (acc ++ objBlob k' body') (Function.update offs k' acc.length)
        k body hnd.2 hmem'

theorem flatMap_pair_range (n : Nat) :
    [1, 2, 3] ++ (List.range n).flatMap (fun i => [4 + i * 2, 5 + i * 2]) =
      List.range' 1 (3 + n * 2) := by
  induction n with
  | zero => rfl
  | succ m ih =>
    rw [List.range_succ, List.flatMap_append, ← List.append_assoc, ih]
    have h1 : 3 + (m + 1) * 2 = (3 + m * 2 + 1) + 1 := by omega
    rw [h1, List.range'_concat, List.range'_concat]
    simp only [List.flatMap_cons, List.flatMap_nil, List.append_nil]
    have h2 : 1 + 1 * (3 + m * 2) = 4 + m * 2 := by omega
    have h3 : 1 + 1 * (3 + m * 2 + 1) = 5 + m * 2 := by omega
    rw [h2, h3, List.append_assoc]
    rfl

theorem pdfObjects_keys (pages : List (List String)) :
    (pdfObjects pages).map Prod.fst = List.range' 1 (3 + pages.length * 2) := by
  unfold pdfObjects
  rw [List.map_append]
  rw [List.map_flatMap]
  have hz : ((List.range pages.length).zip pages).flatMap
      (fun p => List.map Prod.fst
        [(4 + p.1 * 2, pageBody (5 + p.1 * 2)), (5 + p.1 * 2, contentBody p.2)]) =
      ((List.range pages.length).zip pages).flatMap
        (fun p => [4 + p.1 * 2, 5 + p.1 * 2]) := by
    simp
  rw [hz]
  have hzip : ((List.range pages.length).zip pages).flatMap
      (fun p => [4 + p.1 * 2, 5 + p.1 * 2]) =
      (((List.range pages.length).zip pages).map Prod.fst).flatMap
        (fun i => [4 + i * 2, 5 + i * 2]) := by
    rw [List.flatMap_map]
  rw [hzip, List.map_fst_zip _ _ (by rw [List.length_range]),
    ← flatMap_pair_range]
  rfl

theorem utf8Bytes_append (s t : String) :
    utf8Bytes (s ++ t) = utf8Bytes s ++ utf8Bytes t := by
  unfold utf8Bytes
  rw [String.data_append, List.flatMap_append]

theorem prefix_drop_append {α : Type} {p l m : List α} {n : Nat}
    (h : p <+: l.drop n) : p <+: (l ++ m).drop n := by
  rw [List.drop_append_eq_append_drop]
  exact h.trans (List.prefix_append _ _)

theorem pdfSortedObjects_keys_nodup (lines : List String) :
    ((pdfSortedObjects lines).map Prod.fst).Nodup := by
  have hperm : (pdfSortedObjects lines).Perm (pdfObjects (paginate lines)) :=
    List.mergeSort_perm _ _
  rw [(hperm.map Prod.fst).nodup_iff, pdfObjects_keys]
  exact List.nodup_range' _ _

/-- C1: for every input line list, the cross-reference table has exactly
`max_obj_num + 1` entries; the trailer declares the same `/Size`; every
object number referenced by the trailer, catalog, or page tree has a
corresponding built object; and the byte offset recorded for each built
object is the exact position of its `<num> 0 obj` token in the byte
stream. -/
theorem claim_C1_pdf_xref (lines : List String) :
    (pdfXrefEntries lines).length = pdfMaxObj lines + 1
    ∧ pdfTrailerSize lines = pdfMaxObj lines + 1
    ∧ (∀ k ∈ pdfReferencedObjNums lines,
        ∃ body, (k, body) ∈ pdfObjects (paginate lines))
    ∧ (∀ k body, (k, body) ∈ pdfObjects (paginate lines) →
        utf8Bytes (objToken k) <+:
          (buildSimpleTextPdf lines).drop (pdfOffsets lines k)) := by
  refine ⟨by simp [pdfXrefEntries], rfl, ?_, ?_⟩
  · intro k hk
    have hkeys : k ∈ (pdfObjects (paginate lines)).map Prod.fst := by
      rw [pdfObjects_keys, List.mem_range']
      unfold pdfReferencedObjNums at hk
      simp only [List.mem_cons, List.mem_flatMap, List.mem_range] at hk
      rcases hk with h | h | h | ⟨i, hi, h⟩
      · exact ⟨0, by omega, by omega⟩
      · exact ⟨1, by omega, by omega⟩
      · exact ⟨2, by omega, by omega⟩
      · simp only [List.mem_cons, List.not_mem_nil, or_false] at h
        rcases h with h | h
        · exact ⟨3 + i * 2, by omega, by omega⟩
        · exact ⟨4 + i * 2, by omega, by omega⟩
    rcases List.mem_map.mp hkeys with ⟨q, hq, hqk⟩
    exact ⟨q.2, by rw [← hqk, Prod.mk.eta]; exact hq⟩
  · intro k body hmem
    have hmem' : (k, body) ∈ pdfSortedObjects lines :=
      (List.mergeSort_perm _ _).mem_iff.mpr hmem
    have hpre : objBlob k body <+:
        ((pdfBodyBytes lines).drop (pdfOffsets lines k)) :=
      serializeObjs_offset_prefix (pdfSortedObjects lines) pdfHeader
        (fun _ => 0) k body (pdfSortedObjects_keys_nodup lines) hmem'
    have htok : utf8Bytes (objToken k) <+: objBlob k body := by
      unfold objBlob
      rw [utf8Bytes_append]
      simp only [List.append_assoc]
      exact List.prefix_append _ _
    unfold buildSimpleTextPdf
    rw [List.append_assoc]
    exact prefix_drop_append (htok.trans hpre)

set_option maxRecDepth 40000 in
/-- C1 witness: the invariants applied to the empty input — object 1 is
referenced and built, and its recorded offset points at its `1 0 obj`
token. -/
theorem claim_C1_witness :
    (∃ body, (1, body) ∈ pdfObjects (paginate []))
    ∧ utf8Bytes (objToken 1) <+:
        (buildSimpleTextPdf []).drop (pdfOffsets [] 1) :=
  ⟨(claim_C1_pdf_xref []).2.2.1 1 (by decide),
   (claim_C1_pdf_xref []).2.2.2 1 catalogBody (by decide)⟩

end ResumeAgent
